import Mathlib

/-!
# NotesWriterSSC: a verification development

A shallow embedding of `src/NotesWriterSSC.cpp` (the `.ssc` step-file writer) and
theorems about it.

Conventions of the embedding

* `RString` is `String`; `vector<RString>` is `List String`; `push_back` appends at the end.
* `int` values (rows, combos, meters) are `Int`; no arithmetic is done on them by the writer, they
  are only printed with `%d`.
* `float` is an abstract type `F` of finite float values with decidable equality, which is the
  comparison `==`.  The writer never computes with floats: it prints them with `%.3f` / `%.2f`,
  compares two of them with `==`, and tests one with `> 0`.  Printing and the sign test, like
  every other function that the translation unit only calls (it is declared in a header that is
  not part of the translation unit), are fields of the structure `Ext`.
* A failed `ASSERT` aborts the program: functions that can reach one return `Option`, and `none`
  is the abort.  `ASSERT` and `ASSERT_M` are macros of `global.h`, which is not part of the
  translation unit; they are modelled from the spec, which has a violated assertion fatal.
* Storage (`RageFile`, `FILEMAN`) is modelled by the list of operations performed on it, each with
  the outcome the storage layer reported.
-/

set_option autoImplicit false
set_option maxRecDepth 100000

namespace NotesWriterSSC

/-! ## Data model: timing segments (`TimingSegments.h`, accessed through their getters) -/

/-- Tempo segment: `GetRow()`, `GetBPM()`. -/
structure BPMSegment (F : Type) where
  GetRow : Int
  GetBPM : F
deriving DecidableEq

/-- Stop segment: `GetRow()`, `GetPause()`. -/
structure StopSegment (F : Type) where
  GetRow : Int
  GetPause : F
deriving DecidableEq

/-- Delay segment: `GetRow()`, `GetPause()`. -/
structure DelaySegment (F : Type) where
  GetRow : Int
  GetPause : F
deriving DecidableEq

/-- Warp segment: `GetRow()`, `GetLength()`. -/
structure WarpSegment (F : Type) where
  GetRow : Int
  GetLength : F
deriving DecidableEq

/-- Time signature segment: `GetRow()`, `GetNum()`, `GetDen()`. -/
structure TimeSignatureSegment where
  GetRow : Int
  GetNum : Int
  GetDen : Int
deriving DecidableEq

/-- Tickcount segment: `GetRow()`, `GetTicks()`. -/
structure TickcountSegment where
  GetRow : Int
  GetTicks : Int
deriving DecidableEq

/-- Combo segment: `GetRow()`, `GetCombo()`, `GetMissCombo()`. -/
structure ComboSegment where
  GetRow : Int
  GetCombo : Int
  GetMissCombo : Int
deriving DecidableEq

/-- Speed segment: `GetRow()`, `GetRatio()`, `GetLength()`, `GetUnit()`.  The unit is passed to a
parameter of type `unsigned short`. -/
structure SpeedSegment (F : Type) where
  GetRow : Int
  GetRatio : F
  GetLength : F
  GetUnit : Nat
deriving DecidableEq

/-- Scroll segment: `GetRow()`, `GetRatio()`. -/
structure ScrollSegment (F : Type) where
  GetRow : Int
  GetRatio : F
deriving DecidableEq

/-- Fake segment: `GetRow()`, `GetLength()`. -/
structure FakeSegment (F : Type) where
  GetRow : Int
  GetLength : F
deriving DecidableEq

/-- Label segment: `GetRow()`, `GetLabel()`. -/
structure LabelSegment where
  GetRow : Int
  GetLabel : String
deriving DecidableEq

/-- The timing collection `TimingData`: the beat-zero offset and `allTimingSegments`, one ordered
sequence per segment category.  The source stores `TimingSegment *` and downcasts with
`static_cast`; here each category has its own element type. -/
structure TimingData (F : Type) where
  m_fBeat0OffsetInSeconds : F
  SEGMENT_BPM : List (BPMSegment F)
  SEGMENT_STOP : List (StopSegment F)
  SEGMENT_DELAY : List (DelaySegment F)
  SEGMENT_WARP : List (WarpSegment F)
  SEGMENT_TIME_SIG : List TimeSignatureSegment
  SEGMENT_TICKCOUNT : List TickcountSegment
  SEGMENT_COMBO : List ComboSegment
  SEGMENT_SPEED : List (SpeedSegment F)
  SEGMENT_SCROLL : List (ScrollSegment F)
  SEGMENT_FAKE : List (FakeSegment F)
  SEGMENT_LABEL : List LabelSegment
deriving DecidableEq

/-- The enumeration `TimingSegmentType` that indexes `allTimingSegments`. -/
inductive TimingSegmentType where
  | SEGMENT_BPM | SEGMENT_STOP | SEGMENT_DELAY | SEGMENT_WARP | SEGMENT_TIME_SIG
  | SEGMENT_TICKCOUNT | SEGMENT_COMBO | SEGMENT_SPEED | SEGMENT_SCROLL | SEGMENT_FAKE
  | SEGMENT_LABEL
deriving DecidableEq

/-! ## External collaborators -/

/-- One background change event; only its string form `ToString()` is used by the writer. -/
structure BackgroundChange where
  ToString : String
deriving DecidableEq

/-- Functions and constants that the writer calls but that are defined outside the translation
unit (`RageUtil`, `NoteTypes.h`, `TimingData`, `GameManager`, `ProfileManager`, ...).  They are
parameters of the embedding. -/
structure Ext (F : Type) where
  /-- `NoteRowToBeat(row)`. -/
  NoteRowToBeat : Int → F
  /-- `ssprintf("%.3f", x)`. -/
  fmt3 : F → String
  /-- `ssprintf("%.2f", x)`. -/
  fmt2 : F → String
  /-- The float test `x > 0`. -/
  isPositive : F → Bool
  /-- `TimingData::TidyUpData()`, applied by `GetTimingTags` to its by-value copy. -/
  TidyUpData : TimingData F → TimingData F
  /-- `TimingData::ToVectorString(tst)`. -/
  ToVectorString : TimingData F → TimingSegmentType → List String
  /-- `SmEscape(s)`. -/
  SmEscape : String → String
  /-- `TrimRight(s)` (with its default set of characters). -/
  TrimRight : String → String
  /-- `TrimLeft(s)` (with its default set of characters). -/
  TrimLeft : String → String
  /-- `split(source, delimiter, addTo, bIgnoreEmpty)`: the pieces it appends to `addTo`. -/
  split : String → String → Bool → List String
  /-- `MakeValidFilename(s)`. -/
  MakeValidFilename : String → String
  /-- `GAMEMAN->GetStepsTypeInfo(st).szName`. -/
  StepsTypeName : Nat → String
  /-- `DifficultyToString(d)`. -/
  DifficultyToString : Nat → String
  /-- The constant `StepsType_dance_double`. -/
  StepsType_dance_double : Nat
  /-- The constant `STEPFILE_VERSION_NUMBER`. -/
  STEPFILE_VERSION_NUMBER : F
  /-- The constant `NUM_BackgroundLayer` bounding `FOREACH_BackgroundLayer`. -/
  NUM_BackgroundLayer : Nat
  /-- `PROFILEMAN->GetProfileDir(ProfileSlot_Machine)`. -/
  MachineProfileDir : String
  /-- The constant `EDIT_STEPS_SUBDIR`. -/
  EDIT_STEPS_SUBDIR : String

/-- `join(delimiter, begin, end)` of `RageUtil`: the strings with the delimiter between
consecutive ones; the empty string for an empty range. -/
def join (sDeliminator : String) : List String → String
  | [] => ""
  | [s] => s
  | s :: t :: rest => s ++ sDeliminator ++ join sDeliminator (t :: rest)

/-- `ssprintf("%d", n)`. -/
def fmtD (n : Int) : String := toString n

/-- `ssprintf("%hd", c)` for an argument `c` of type `unsigned short`: the argument is converted
to `unsigned short` (modulo `2^16`) and `%hd` prints it as a `short`. -/
def fmtHD (c : Nat) : String :=
  let u := c % 65536
  if u < 32768 then toString (Int.ofNat u) else toString (Int.ofNat u - 65536)

/-! ## `JoinLineList` -/

/-- The loop `while( j < lines.size() && lines.size() == 0 ) ++j;` at index `j`, for a vector
of `n` lines; the result is the final `j`.  The first argument bounds the number of iterations
still allowed; each iteration needs `j < n`, so `n - j` iterations are never exceeded. -/
def skipLeadingBlanks.loop (n : Nat) : Nat → Nat → Nat
  | 0, j => j
  | fuel + 1, j => if j < n ∧ n = 0 then skipLeadingBlanks.loop n fuel (j + 1) else j

/-- The index `j` after `unsigned j = 0; while( j < lines.size() && lines.size() == 0 ) ++j;`
for a vector of `n` lines. -/
def skipLeadingBlanks (n : Nat) : Nat :=
  skipLeadingBlanks.loop n n 0

/-- `JoinLineList(lines)`: trim every line on the right, skip `j` leading lines, join the rest
with `"\r\n"`. -/
def JoinLineList {F : Type} (ext : Ext F) (lines : List String) : String :=
  let lines := lines.map ext.TrimRight
  let j := skipLeadingBlanks lines.length
  join "\r\n" (lines.drop j)

/-! ## `TimingTagWriter` -/

/-- The helper `TimingTagWriter`: the line vector it appends to and the pending prefix
`m_sNext`. -/
structure TimingTagWriter where
  m_pvsLines : List String
  m_sNext : String
deriving DecidableEq

namespace TimingTagWriter

/-- The constructor `TimingTagWriter( vector<RString> *pvsLines )`; `m_sNext` is
default-constructed. -/
def mk_ (pvsLines : List String) : TimingTagWriter := ⟨pvsLines, ""⟩

/-- `Write( const int row, const char *value )`. -/
def Write {F : Type} (ext : Ext F) (w : TimingTagWriter) (row : Int) (value : String) :
    TimingTagWriter :=
  { m_pvsLines := w.m_pvsLines ++ [w.m_sNext ++ (ext.fmt3 (ext.NoteRowToBeat row) ++ "=" ++ value)]
    m_sNext := "," }

/-- `Write( const int row, const float value )`. -/
def Write_float {F : Type} (ext : Ext F) (w : TimingTagWriter) (row : Int) (value : F) :
    TimingTagWriter :=
  w.Write ext row (ext.fmt3 value)

/-- `Write( const int row, const int value )`. -/
def Write_int {F : Type} (ext : Ext F) (w : TimingTagWriter) (row : Int) (value : Int) :
    TimingTagWriter :=
  w.Write ext row (fmtD value)

/-- `Write( const int row, const int a, const int b )`. -/
def Write_int_int {F : Type} (ext : Ext F) (w : TimingTagWriter) (row : Int) (a b : Int) :
    TimingTagWriter :=
  w.Write ext row (fmtD a ++ "=" ++ fmtD b)

/-- `Write( const int row, const float a, const float b )`. -/
def Write_float_float {F : Type} (ext : Ext F) (w : TimingTagWriter) (row : Int) (a b : F) :
    TimingTagWriter :=
  w.Write ext row (ext.fmt3 a ++ "=" ++ ext.fmt3 b)

/-- `Write( const int row, const float a, const float b, const unsigned short c )`. -/
def Write_float_float_ushort {F : Type} (ext : Ext F) (w : TimingTagWriter) (row : Int) (a b : F)
    (c : Nat) : TimingTagWriter :=
  w.Write ext row (ext.fmt3 a ++ "=" ++ ext.fmt3 b ++ "=" ++ fmtHD c)

/-- `Init( const RString sTag )`. -/
def Init (w : TimingTagWriter) (sTag : String) : TimingTagWriter :=
  { w with m_sNext := "#" ++ sTag ++ ":" }

/-- `Finish()`. -/
def Finish (w : TimingTagWriter) : TimingTagWriter :=
  { w with m_pvsLines := w.m_pvsLines ++ [(if w.m_sNext != "," then w.m_sNext else "") ++ ";"] }

end TimingTagWriter

/-! ## `GetTimingTags` -/

/-- `GetTimingTags( lines, timing, bIsSong )`.  `timing` is passed by value and tidied first; the
three `ASSERT`s abort (`none`); otherwise the result is the line vector after the call. -/
def GetTimingTags {F : Type} (ext : Ext F) (lines : List String) (timing : TimingData F)
    (bIsSong : Bool) : Option (List String) :=
  let w := TimingTagWriter.mk_ lines
  let timing := ext.TidyUpData timing
  let w := w.Init "BPMS"
  let w := timing.SEGMENT_BPM.foldl (fun w bs => w.Write_float ext bs.GetRow bs.GetBPM) w
  let w := w.Finish
  let w := w.Init "STOPS"
  let w := timing.SEGMENT_STOP.foldl (fun w ss => w.Write_float ext ss.GetRow ss.GetPause) w
  let w := w.Finish
  let w := w.Init "DELAYS"
  let w := timing.SEGMENT_DELAY.foldl (fun w ss => w.Write_float ext ss.GetRow ss.GetPause) w
  let w := w.Finish
  let w := w.Init "WARPS"
  let w := timing.SEGMENT_WARP.foldl (fun w ws => w.Write_float ext ws.GetRow ws.GetLength) w
  let w := w.Finish
  if timing.SEGMENT_TIME_SIG.isEmpty then none else
  let w := w.Init "TIMESIGNATURES"
  let w := timing.SEGMENT_TIME_SIG.foldl
    (fun w ts => w.Write_int_int ext ts.GetRow ts.GetNum ts.GetDen) w
  let w := w.Finish
  if timing.SEGMENT_TICKCOUNT.isEmpty then none else
  let w := w.Init "TICKCOUNTS"
  let w := timing.SEGMENT_TICKCOUNT.foldl (fun w ts => w.Write_int ext ts.GetRow ts.GetTicks) w
  let w := w.Finish
  if timing.SEGMENT_COMBO.isEmpty then none else
  let w := w.Init "COMBOS"
  let w := timing.SEGMENT_COMBO.foldl
    (fun w cs =>
      if cs.GetCombo = cs.GetMissCombo then w.Write_int ext cs.GetRow cs.GetCombo
      else w.Write_int_int ext cs.GetRow cs.GetCombo cs.GetMissCombo) w
  let w := w.Finish
  let w := w.Init "SPEEDS"
  let w := timing.SEGMENT_SPEED.foldl
    (fun w ss => w.Write_float_float_ushort ext ss.GetRow ss.GetRatio ss.GetLength ss.GetUnit) w
  let w := w.Finish
  let w := w.Init "SCROLLS"
  let w := timing.SEGMENT_SCROLL.foldl (fun w ss => w.Write_float ext ss.GetRow ss.GetRatio) w
  let w := w.Finish
  let w :=
    if !bIsSong then
      let w := w.Init "FAKES"
      let w := timing.SEGMENT_FAKE.foldl (fun w fs => w.Write_float ext fs.GetRow fs.GetLength) w
      w.Finish
    else w
  let w := w.Init "LABELS"
  let w := timing.SEGMENT_LABEL.foldl (fun w ls => w.Write ext ls.GetRow ls.GetLabel) w
  let w := w.Finish
  some w.m_pvsLines

/-! ## Reading aids for the theorems on tags -/

/-- The text of one entry written by `TimingTagWriter::Write(row, value)`, without the pending
prefix: `ssprintf( "%.3f=%s", NoteRowToBeat(row), value )`. -/
def entryText {F : Type} (ext : Ext F) (row : Int) (value : String) : String :=
  ext.fmt3 (ext.NoteRowToBeat row) ++ "=" ++ value

/-- The lines of one complete tag with the given entry texts, as the format describes them: the
first entry carries `#TAG:`, each later one a comma, and a closing `;` line (which also carries
`#TAG:` when there is no entry). -/
def tagLines (sTag : String) : List String → List String
  | [] => ["#" ++ sTag ++ ":" ++ ";"]
  | e :: es => ("#" ++ sTag ++ ":" ++ e) :: (es.map (fun x => "," ++ x) ++ [";"])

/-- One call of a `Write` overload of `TimingTagWriter`, with its arguments. -/
inductive WriteCall (F : Type) where
  | str (row : Int) (value : String)
  | float (row : Int) (value : F)
  | int (row : Int) (value : Int)
  | int_int (row : Int) (a b : Int)
  | float_float (row : Int) (a b : F)
  | float_float_ushort (row : Int) (a b : F) (c : Nat)

/-- Perform one `Write` call on a writer. -/
def WriteCall.run {F : Type} (ext : Ext F) (w : TimingTagWriter) : WriteCall F → TimingTagWriter
  | .str row value => w.Write ext row value
  | .float row value => w.Write_float ext row value
  | .int row value => w.Write_int ext row value
  | .int_int row a b => w.Write_int_int ext row a b
  | .float_float row a b => w.Write_float_float ext row a b
  | .float_float_ushort row a b c => w.Write_float_float_ushort ext row a b c

/-- The row of a `Write` call. -/
def WriteCall.row {F : Type} : WriteCall F → Int
  | .str row _ => row
  | .float row _ => row
  | .int row _ => row
  | .int_int row _ _ => row
  | .float_float row _ _ => row
  | .float_float_ushort row _ _ _ => row

/-- The formatted value of a `Write` call: what the overload passes on as `value`. -/
def WriteCall.valueText {F : Type} (ext : Ext F) : WriteCall F → String
  | .str _ value => value
  | .float _ value => ext.fmt3 value
  | .int _ value => fmtD value
  | .int_int _ a b => fmtD a ++ "=" ++ fmtD b
  | .float_float _ a b => ext.fmt3 a ++ "=" ++ ext.fmt3 b
  | .float_float_ushort _ a b c => ext.fmt3 a ++ "=" ++ ext.fmt3 b ++ "=" ++ fmtHD c

/-- The entry `<beat, 3 decimals>=<value>` of a `Write` call. -/
def WriteCall.entry {F : Type} (ext : Ext F) (c : WriteCall F) : String :=
  entryText ext c.row (c.valueText ext)

/-- The writer after writing entries with the given texts: nothing changes for no entry;
otherwise the first line carries the pending prefix, the others a comma, and a comma is
pending. -/
def writeEntries (w : TimingTagWriter) : List String → TimingTagWriter
  | [] => w
  | t :: ts => ⟨w.m_pvsLines ++ (w.m_sNext ++ t) :: ts.map (fun x => "," ++ x), ","⟩

/-- The value text of a combo entry: the combo alone when the miss combo equals it, otherwise
the pair. -/
def comboValue (cs : ComboSegment) : String :=
  if cs.GetCombo = cs.GetMissCombo then fmtD cs.GetCombo
  else fmtD cs.GetCombo ++ "=" ++ fmtD cs.GetMissCombo

/-- The tag name of each segment category. -/
def tagName : TimingSegmentType → String
  | .SEGMENT_BPM => "BPMS"
  | .SEGMENT_STOP => "STOPS"
  | .SEGMENT_DELAY => "DELAYS"
  | .SEGMENT_WARP => "WARPS"
  | .SEGMENT_TIME_SIG => "TIMESIGNATURES"
  | .SEGMENT_TICKCOUNT => "TICKCOUNTS"
  | .SEGMENT_COMBO => "COMBOS"
  | .SEGMENT_SPEED => "SPEEDS"
  | .SEGMENT_SCROLL => "SCROLLS"
  | .SEGMENT_FAKE => "FAKES"
  | .SEGMENT_LABEL => "LABELS"

/-- The number of segments of a category: `allTimingSegments[tst].size()`. -/
def TimingData.size {F : Type} (td : TimingData F) : TimingSegmentType → Nat
  | .SEGMENT_BPM => td.SEGMENT_BPM.length
  | .SEGMENT_STOP => td.SEGMENT_STOP.length
  | .SEGMENT_DELAY => td.SEGMENT_DELAY.length
  | .SEGMENT_WARP => td.SEGMENT_WARP.length
  | .SEGMENT_TIME_SIG => td.SEGMENT_TIME_SIG.length
  | .SEGMENT_TICKCOUNT => td.SEGMENT_TICKCOUNT.length
  | .SEGMENT_COMBO => td.SEGMENT_COMBO.length
  | .SEGMENT_SPEED => td.SEGMENT_SPEED.length
  | .SEGMENT_SCROLL => td.SEGMENT_SCROLL.length
  | .SEGMENT_FAKE => td.SEGMENT_FAKE.length
  | .SEGMENT_LABEL => td.SEGMENT_LABEL.length

/-- The entry texts `<beat>=<payload>` of the segments of a category, in order, with the payload
the format gives the category. -/
def segmentEntries {F : Type} (ext : Ext F) (td : TimingData F) : TimingSegmentType → List String
  | .SEGMENT_BPM => td.SEGMENT_BPM.map (fun s => entryText ext s.GetRow (ext.fmt3 s.GetBPM))
  | .SEGMENT_STOP => td.SEGMENT_STOP.map (fun s => entryText ext s.GetRow (ext.fmt3 s.GetPause))
  | .SEGMENT_DELAY => td.SEGMENT_DELAY.map (fun s => entryText ext s.GetRow (ext.fmt3 s.GetPause))
  | .SEGMENT_WARP => td.SEGMENT_WARP.map (fun s => entryText ext s.GetRow (ext.fmt3 s.GetLength))
  | .SEGMENT_TIME_SIG =>
    td.SEGMENT_TIME_SIG.map
      (fun s => entryText ext s.GetRow (fmtD s.GetNum ++ "=" ++ fmtD s.GetDen))
  | .SEGMENT_TICKCOUNT =>
    td.SEGMENT_TICKCOUNT.map (fun s => entryText ext s.GetRow (fmtD s.GetTicks))
  | .SEGMENT_COMBO => td.SEGMENT_COMBO.map (fun s => entryText ext s.GetRow (comboValue s))
  | .SEGMENT_SPEED =>
    td.SEGMENT_SPEED.map
      (fun s => entryText ext s.GetRow
        (ext.fmt3 s.GetRatio ++ "=" ++ ext.fmt3 s.GetLength ++ "=" ++ fmtHD s.GetUnit))
  | .SEGMENT_SCROLL =>
    td.SEGMENT_SCROLL.map (fun s => entryText ext s.GetRow (ext.fmt3 s.GetRatio))
  | .SEGMENT_FAKE => td.SEGMENT_FAKE.map (fun s => entryText ext s.GetRow (ext.fmt3 s.GetLength))
  | .SEGMENT_LABEL => td.SEGMENT_LABEL.map (fun s => entryText ext s.GetRow s.GetLabel)

/-- The categories of a timing block in the order of the format; the song-level block has no
`FAKES` tag. -/
def categoryOrder (bIsSong : Bool) : List TimingSegmentType :=
  [.SEGMENT_BPM, .SEGMENT_STOP, .SEGMENT_DELAY, .SEGMENT_WARP, .SEGMENT_TIME_SIG,
    .SEGMENT_TICKCOUNT, .SEGMENT_COMBO, .SEGMENT_SPEED, .SEGMENT_SCROLL]
  ++ (if bIsSong then [] else [.SEGMENT_FAKE]) ++ [.SEGMENT_LABEL]

/-- The timing block as the format describes it: one tag per category in the fixed order, each
with the entries of its segments. -/
def timingBlock {F : Type} (ext : Ext F) (td : TimingData F) (bIsSong : Bool) : List String :=
  ((categoryOrder bIsSong).map (fun c => tagLines (tagName c) (segmentEntries ext td c))).flatten

/-! ## Data model: songs and charts (`Song.h`, `Steps.h`, accessed through their getters) -/

/-- The selectability policy `Song::SelectionDisplay`.  The writer names two enumerators; any
other value the field may hold is `other`. -/
inductive SelectionDisplay where
  | SHOW_ALWAYS
  | SHOW_NEVER
  | other (value : Int)
deriving DecidableEq

/-- The display-tempo policy `DisplayBPM`.  The writer names three enumerators; any other value
the field may hold is `other`. -/
inductive DisplayBPM where
  | DISPLAY_BPM_ACTUAL
  | DISPLAY_BPM_SPECIFIED
  | DISPLAY_BPM_RANDOM
  | other (value : Int)
deriving DecidableEq

/-- The attributes of `Song` that the writer reads. -/
structure Song (F : Type) where
  m_sMainTitle : String
  m_sSubTitle : String
  m_sArtist : String
  m_sMainTitleTranslit : String
  m_sSubTitleTranslit : String
  m_sArtistTranslit : String
  m_sGenre : String
  m_sOrigin : String
  m_sCredit : String
  m_sBannerFile : String
  m_sBackgroundFile : String
  m_sLyricsFile : String
  m_sCDTitleFile : String
  m_sMusicFile : String
  GetInstrumentTracksToVectorString : List String
  m_SongTiming : TimingData F
  m_fMusicSampleStartSeconds : F
  m_fMusicSampleLengthSeconds : F
  m_SelectionDisplay : SelectionDisplay
  m_DisplayBPMType : DisplayBPM
  m_fSpecifiedBPMMin : F
  m_fSpecifiedBPMMax : F
  GetSpecifiedLastSecond : F
  GetBackgroundChanges : Nat → List BackgroundChange
  GetForegroundChanges : List BackgroundChange
  m_vsKeysoundFile : List String
  GetAttackString : String
  GetFirstSecond : F
  GetLastSecond : F
  m_sSongFileName : String
  m_bHasMusic : Bool
  m_bHasBanner : Bool
  m_fMusicLengthSeconds : F
  GetSongDir : String
  GetTranslitFullTitle : String

/-- The attributes of `Steps` that the writer reads, and the one it writes (the filename).
`GetRadarValues` lists, for each player number in enumeration order, the radar values in
category order.  The saved-to-disk flag and the filename are separate attributes, read by
`GetSavedToDisk()` and `GetFilename()`. -/
structure Steps (F : Type) where
  m_StepsType : Nat
  GetDescription : String
  GetChartName : String
  GetChartStyle : String
  GetCredit : String
  GetDifficulty : Nat
  GetMeter : Int
  GetRadarValues : List (List F)
  m_Timing : TimingData F
  GetAttackString : String
  GetDisplayBPM : DisplayBPM
  GetMinBPM : F
  GetMaxBPM : F
  GetSMNoteData : String
  GetSavedToDisk : Bool
  GetFilename : String

/-- Modelled from the spec: `Steps::SetFilename` is declared outside the translation unit; it
updates the chart's recorded on-disk filename and no other attribute. -/
def Steps.SetFilename {F : Type} (pSteps : Steps F) (fn : String) : Steps F :=
  { pSteps with GetFilename := fn }

/-- The `DISPLAYBPM` lines of a display-tempo policy as the format describes them: none for
`Actual` (and for a value outside the three policies), the single value or `min:max` for
`Specified`, the star for `Random`. -/
def displayBPMLines {F : Type} [DecidableEq F] (ext : Ext F) (policy : DisplayBPM)
    (fMin fMax : F) : List String :=
  match policy with
  | .DISPLAY_BPM_ACTUAL => []
  | .DISPLAY_BPM_SPECIFIED =>
    if fMin = fMax then ["#DISPLAYBPM:" ++ ext.fmt3 fMin ++ ";"]
    else ["#DISPLAYBPM:" ++ ext.fmt3 fMin ++ ":" ++ ext.fmt3 fMax ++ ";"]
  | .DISPLAY_BPM_RANDOM => ["#DISPLAYBPM:*;"]
  | .other _ => []

/-! ## Files -/

/-- A write on an open `RageFile`: `f.Write(s)` or `f.PutLine(s)`. -/
inductive FileOp where
  | Write (s : String)
  | PutLine (s : String)
deriving DecidableEq

/-- What a header or document encoder did before it returned or before a failed `ASSERT` stopped
the program: the writes it made on the file, and whether it was stopped. -/
structure Emitted where
  ops : List FileOp
  aborted : Bool
deriving DecidableEq

/-- The string passed to a write. -/
def FileOp.text : FileOp → String
  | .Write s => s
  | .PutLine s => s

/-! ## `WriteTimingTags` and `WriteGlobalTags` -/

/-- `WriteTimingTags( f, timing, bIsSong )`: the writes made on `f`. -/
def WriteTimingTags {F : Type} (ext : Ext F) (timing : TimingData F) (bIsSong : Bool) :
    List FileOp :=
  [ FileOp.PutLine ("#BPMS:" ++ join ",\r\n" (ext.ToVectorString timing .SEGMENT_BPM) ++ ";"),
    FileOp.PutLine ("#STOPS:" ++ join ",\r\n" (ext.ToVectorString timing .SEGMENT_STOP) ++ ";"),
    FileOp.PutLine ("#DELAYS:" ++ join ",\r\n" (ext.ToVectorString timing .SEGMENT_DELAY) ++ ";"),
    FileOp.PutLine ("#WARPS:" ++ join ",\r\n" (ext.ToVectorString timing .SEGMENT_WARP) ++ ";"),
    FileOp.PutLine
      ("#TIMESIGNATURES:" ++ join ",\r\n" (ext.ToVectorString timing .SEGMENT_TIME_SIG) ++ ";"),
    FileOp.PutLine
      ("#TICKCOUNTS:" ++ join ",\r\n" (ext.ToVectorString timing .SEGMENT_TICKCOUNT) ++ ";"),
    FileOp.PutLine ("#COMBOS:" ++ join ",\r\n" (ext.ToVectorString timing .SEGMENT_COMBO) ++ ";"),
    FileOp.PutLine ("#SPEEDS:" ++ join ",\r\n" (ext.ToVectorString timing .SEGMENT_SPEED) ++ ";"),
    FileOp.PutLine
      ("#SCROLLS:" ++ join ",\r\n" (ext.ToVectorString timing .SEGMENT_SCROLL) ++ ";") ]
  ++ (if !bIsSong then
        [FileOp.PutLine
          ("#FAKES:" ++ join ",\r\n" (ext.ToVectorString timing .SEGMENT_FAKE) ++ ";")]
      else [])
  ++ [ FileOp.PutLine
      ("#LABELS:" ++ join ",\r\n" (ext.ToVectorString timing .SEGMENT_LABEL) ++ ";") ]

/-- The `switch( out.m_DisplayBPMType )` of `WriteGlobalTags`: the writes made on `f`. -/
def WriteGlobalTags.displayBPM {F : Type} [DecidableEq F] (ext : Ext F) (out : Song F) :
    List FileOp :=
  match out.m_DisplayBPMType with
  | .DISPLAY_BPM_ACTUAL => []
  | .DISPLAY_BPM_SPECIFIED =>
    if out.m_fSpecifiedBPMMin = out.m_fSpecifiedBPMMax then
      [FileOp.PutLine ("#DISPLAYBPM:" ++ ext.fmt3 out.m_fSpecifiedBPMMin ++ ";")]
    else
      [FileOp.PutLine ("#DISPLAYBPM:" ++ ext.fmt3 out.m_fSpecifiedBPMMin ++ ":"
        ++ ext.fmt3 out.m_fSpecifiedBPMMax ++ ";")]
  | .DISPLAY_BPM_RANDOM => [FileOp.PutLine "#DISPLAYBPM:*;"]
  | .other _ => []

/-- One iteration of `FOREACH_BackgroundLayer( b )` in `WriteGlobalTags`. -/
def WriteGlobalTags.backgroundLayer {F : Type} (out : Song F) (b : Nat) : List FileOp :=
  let rest : List FileOp :=
    (out.GetBackgroundChanges b).map (fun bgc => FileOp.PutLine (bgc.ToString ++ ","))
    ++ (if b = 0 ∧ ¬ (out.GetBackgroundChanges b).isEmpty then
          [FileOp.PutLine
            "99999=-nosongbg-=1.000=0=0=0 // don't automatically add -songbackground-"]
        else [])
    ++ [FileOp.PutLine ";"]
  if b = 0 then FileOp.Write "#BGCHANGES:" :: rest
  else if (out.GetBackgroundChanges b).isEmpty then []
  else FileOp.Write ("#BGCHANGES" ++ fmtD (Int.ofNat b + 1) ++ ":") :: rest

/-- The keysound loop of `WriteGlobalTags`, at index `i` with the files from `i` on still to
write; `size` is `m_vsKeysoundFile.size()`. -/
def WriteGlobalTags.keysoundLoop (size : Nat) : Nat → List String → List FileOp
  | _, [] => []
  | i, file :: rest =>
    FileOp.Write file ::
      ((if i ≠ size - 1 then [FileOp.Write ","] else []) ++ keysoundLoop size (i + 1) rest)

/-- The first part of `WriteGlobalTags`, from `#VERSION` to the write of `"#SELECTABLE:"`. -/
def WriteGlobalTags.head {F : Type} (ext : Ext F) (out : Song F) : List FileOp :=
  [ FileOp.PutLine ("#VERSION:" ++ ext.fmt2 ext.STEPFILE_VERSION_NUMBER ++ ";"),
    FileOp.PutLine ("#TITLE:" ++ ext.SmEscape out.m_sMainTitle ++ ";"),
    FileOp.PutLine ("#SUBTITLE:" ++ ext.SmEscape out.m_sSubTitle ++ ";"),
    FileOp.PutLine ("#ARTIST:" ++ ext.SmEscape out.m_sArtist ++ ";"),
    FileOp.PutLine ("#TITLETRANSLIT:" ++ ext.SmEscape out.m_sMainTitleTranslit ++ ";"),
    FileOp.PutLine ("#SUBTITLETRANSLIT:" ++ ext.SmEscape out.m_sSubTitleTranslit ++ ";"),
    FileOp.PutLine ("#ARTISTTRANSLIT:" ++ ext.SmEscape out.m_sArtistTranslit ++ ";"),
    FileOp.PutLine ("#GENRE:" ++ ext.SmEscape out.m_sGenre ++ ";"),
    FileOp.PutLine ("#ORIGIN:" ++ ext.SmEscape out.m_sOrigin ++ ";"),
    FileOp.PutLine ("#CREDIT:" ++ ext.SmEscape out.m_sCredit ++ ";"),
    FileOp.PutLine ("#BANNER:" ++ ext.SmEscape out.m_sBannerFile ++ ";"),
    FileOp.PutLine ("#BACKGROUND:" ++ ext.SmEscape out.m_sBackgroundFile ++ ";"),
    FileOp.PutLine ("#LYRICSPATH:" ++ ext.SmEscape out.m_sLyricsFile ++ ";"),
    FileOp.PutLine ("#CDTITLE:" ++ ext.SmEscape out.m_sCDTitleFile ++ ";"),
    FileOp.PutLine ("#MUSIC:" ++ ext.SmEscape out.m_sMusicFile ++ ";") ]
  ++ (if ¬ out.GetInstrumentTracksToVectorString.isEmpty then
        [FileOp.PutLine
          ("#INSTRUMENTTRACK:" ++ join "," out.GetInstrumentTracksToVectorString ++ ";\n")]
      else [])
  ++ [ FileOp.PutLine ("#OFFSET:" ++ ext.fmt3 out.m_SongTiming.m_fBeat0OffsetInSeconds ++ ";"),
       FileOp.PutLine ("#SAMPLESTART:" ++ ext.fmt3 out.m_fMusicSampleStartSeconds ++ ";"),
       FileOp.PutLine ("#SAMPLELENGTH:" ++ ext.fmt3 out.m_fMusicSampleLengthSeconds ++ ";"),
       FileOp.Write "#SELECTABLE:" ]

/-- The last part of `WriteGlobalTags`, from `WriteTimingTags( f, out.m_SongTiming, true )` to
`#ATTACKS`. -/
def WriteGlobalTags.rest {F : Type} (ext : Ext F) (out : Song F) : List FileOp :=
  WriteTimingTags ext out.m_SongTiming true
  ++ (if ext.isPositive out.GetSpecifiedLastSecond then
        [FileOp.PutLine ("#LASTSECONDHINT:" ++ ext.fmt3 out.GetSpecifiedLastSecond ++ ";")]
      else [])
  ++ ((List.range ext.NUM_BackgroundLayer).map (WriteGlobalTags.backgroundLayer out)).flatten
  ++ (if out.GetForegroundChanges.length ≠ 0 then
        [FileOp.Write "#FGCHANGES:"]
        ++ out.GetForegroundChanges.map (fun bgc => FileOp.PutLine (bgc.ToString ++ ","))
        ++ [FileOp.PutLine ";"]
      else [])
  ++ [FileOp.Write "#KEYSOUNDS:"]
  ++ WriteGlobalTags.keysoundLoop out.m_vsKeysoundFile.length 0 out.m_vsKeysoundFile
  ++ [ FileOp.PutLine ";",
       FileOp.PutLine ("#ATTACKS:" ++ out.GetAttackString ++ ";") ]

/-- `WriteGlobalTags( f, out )`: the writes made on `f`, up to the return or to the failed
`ASSERT_M` of the `SELECTABLE` switch. -/
def WriteGlobalTags {F : Type} [DecidableEq F] (ext : Ext F) (out : Song F) : Emitted :=
  let tail : List FileOp :=
    [FileOp.PutLine ";"] ++ WriteGlobalTags.displayBPM ext out ++ WriteGlobalTags.rest ext out
  match out.m_SelectionDisplay with
  | .SHOW_ALWAYS => ⟨WriteGlobalTags.head ext out ++ FileOp.Write "YES" :: tail, false⟩
  | .SHOW_NEVER => ⟨WriteGlobalTags.head ext out ++ FileOp.Write "NO" :: tail, false⟩
  | .other _ => ⟨WriteGlobalTags.head ext out, true⟩

/-! ## `GetSSCNoteData` -/

/-- Modelled from the spec: `TimingData::operator!=` is declared outside the translation unit;
the spec has the chart's timing collection compared to the song's by value, so two collections
are unequal exactly when they are different values. -/
def TimingData.ne {F : Type} [DecidableEq F] (a b : TimingData F) : Bool :=
  decide (a ≠ b)

/-- The lines `GetSSCNoteData` pushes before it looks at the timing: the blank line, the comment
banner, `#NOTEDATA:;` and the scalar tags up to `#CREDIT`. -/
def GetSSCNoteData.head {F : Type} (ext : Ext F) (in_ : Steps F) : List String :=
  [ "",
    "//---------------" ++ ext.StepsTypeName in_.m_StepsType ++ " - "
      ++ ext.SmEscape in_.GetDescription ++ "----------------",
    "#NOTEDATA:;",
    "#CHARTNAME:" ++ ext.SmEscape in_.GetChartName ++ ";",
    "#STEPSTYPE:" ++ ext.StepsTypeName in_.m_StepsType ++ ";",
    "#DESCRIPTION:" ++ ext.SmEscape in_.GetDescription ++ ";",
    "#CHARTSTYLE:" ++ ext.SmEscape in_.GetChartStyle ++ ";",
    "#DIFFICULTY:" ++ ext.DifficultyToString in_.GetDifficulty ++ ";",
    "#METER:" ++ fmtD in_.GetMeter ++ ";",
    "#RADARVALUES:"
      ++ join "," ((in_.GetRadarValues.map (fun rv => rv.map ext.fmt3)).flatten) ++ ";",
    "#CREDIT:" ++ ext.SmEscape in_.GetCredit ++ ";" ]

/-- The `switch( in.GetDisplayBPM() )` of `GetSSCNoteData`: the lines it pushes. -/
def GetSSCNoteData.displayBPM {F : Type} [DecidableEq F] (ext : Ext F) (in_ : Steps F) :
    List String :=
  match in_.GetDisplayBPM with
  | .DISPLAY_BPM_ACTUAL => []
  | .DISPLAY_BPM_SPECIFIED =>
    let small := in_.GetMinBPM
    let big := in_.GetMaxBPM
    if small = big then ["#DISPLAYBPM:" ++ ext.fmt3 small ++ ";"]
    else ["#DISPLAYBPM:" ++ ext.fmt3 small ++ ":" ++ ext.fmt3 big ++ ";"]
  | .DISPLAY_BPM_RANDOM => ["#DISPLAYBPM:*;"]
  | .other _ => []

/-- The last part of `GetSSCNoteData`, from `if (bSavingCache)` on: the lines it pushes. -/
def GetSSCNoteData.notes {F : Type} (ext : Ext F) (song : Song F) (in_ : Steps F)
    (bSavingCache : Bool) : List String :=
  if bSavingCache then ["#STEPFILENAME:" ++ in_.GetFilename ++ ";"]
  else
    [if song.m_vsKeysoundFile.isEmpty then "#NOTES:" else "#NOTES2:"]
    ++ ext.split (ext.TrimLeft in_.GetSMNoteData) "\n" true
    ++ [";"]

/-- The vector `lines` of `GetSSCNoteData` just before `JoinLineList( lines )`; `none` when an
`ASSERT` of `GetTimingTags` stops the program. -/
def GetSSCNoteData.lines {F : Type} [DecidableEq F] (ext : Ext F) (song : Song F)
    (in_ : Steps F) (bSavingCache : Bool) : Option (List String) :=
  let lines := GetSSCNoteData.head ext in_
  let timed : Option (List String) :=
    if TimingData.ne song.m_SongTiming in_.m_Timing then
      GetTimingTags ext
        (lines ++ ["#OFFSET:" ++ ext.fmt3 in_.m_Timing.m_fBeat0OffsetInSeconds ++ ";"])
        in_.m_Timing false
    else some lines
  match timed with
  | none => none
  | some lines =>
    let lines :=
      if song.GetAttackString ≠ in_.GetAttackString then
        lines ++ ["#ATTACKS:" ++ in_.GetAttackString ++ ";"]
      else lines
    let lines := lines ++ GetSSCNoteData.displayBPM ext in_
    let lines := lines ++ GetSSCNoteData.notes ext song in_ bSavingCache
    some lines

/-- `GetSSCNoteData( song, in, bSavingCache )`. -/
def GetSSCNoteData {F : Type} [DecidableEq F] (ext : Ext F) (song : Song F) (in_ : Steps F)
    (bSavingCache : Bool) : Option String :=
  (GetSSCNoteData.lines ext song in_ bSavingCache).map (JoinLineList ext)

/-! ## Storage -/

/-- The storage layer as one call of the writer meets it: the files present (path to contents),
and the outcome it gives each operation that can fail.  Writes on the open file are numbered
from 0 in the order they are made. -/
structure Storage where
  files : String → Option String
  OpenOk : String → Bool
  WriteOk : Nat → String → Bool
  FlushOk : Bool
  RemoveOk : String → Bool

/-- `DoesFileExist( sPath )`. -/
def Storage.DoesFileExist (st : Storage) (sPath : String) : Bool :=
  (st.files sPath).isSome

/-- An operation performed on storage, with the outcome the storage layer reported (`ok` is
false when `Open` returned false, `Write` / `PutLine` / `Flush` returned -1, `Remove` returned
false). -/
inductive StorageOp where
  | DoesFileExist (sPath : String) (result : Bool)
  | Open (sPath : String) (bSlowFlush : Bool) (ok : Bool)
  | Write (sPath : String) (s : String) (ok : Bool)
  | PutLine (sPath : String) (s : String) (ok : Bool)
  | Flush (sPath : String) (ok : Bool)
  | Remove (sPath : String) (ok : Bool)
deriving DecidableEq

/-- Modelled from the spec: the storage primitives (open, write, flush, remove, exists) are
external collaborators.  A successful open for writing leaves an empty file at the path, a
successful write appends its text (`PutLine` adds the line terminator), a successful remove
leaves no file at the path; queries, flushes and failed operations change no contents. -/
def StorageOp.apply (files : String → Option String) : StorageOp → (String → Option String)
  | .DoesFileExist _ _ => files
  | .Open sPath _ ok => if ok then fun p => if p = sPath then some "" else files p else files
  | .Write sPath s ok =>
    if ok then fun p => if p = sPath then some ((files p).getD "" ++ s) else files p else files
  | .PutLine sPath s ok =>
    if ok then fun p => if p = sPath then some ((files p).getD "" ++ s ++ "\r\n") else files p
    else files
  | .Flush _ _ => files
  | .Remove sPath ok => if ok then fun p => if p = sPath then none else files p else files

/-- The files after a sequence of storage operations. -/
def applyTrace (files : String → Option String) (trace : List StorageOp) :
    String → Option String :=
  trace.foldl StorageOp.apply files

/-- Perform writes on the file opened at `sPath`; `n` is the number of writes already made. -/
def performOps (st : Storage) (sPath : String) : Nat → List FileOp → List StorageOp
  | _, [] => []
  | n, .Write s :: rest =>
    StorageOp.Write sPath s (st.WriteOk n s) :: performOps st sPath (n + 1) rest
  | n, .PutLine s :: rest =>
    StorageOp.PutLine sPath s (st.WriteOk n s) :: performOps st sPath (n + 1) rest

/-! ## `NotesWriterSSC::Write` -/

/-- The cache block written by `Write` when `bSavingCache` holds. -/
def Write.cacheTags {F : Type} (ext : Ext F) (out : Song F) : List FileOp :=
  [ FileOp.PutLine "// cache tags:",
    FileOp.PutLine ("#FIRSTSECOND:" ++ ext.fmt3 out.GetFirstSecond ++ ";"),
    FileOp.PutLine ("#LASTSECOND:" ++ ext.fmt3 out.GetLastSecond ++ ";"),
    FileOp.PutLine ("#SONGFILENAME:" ++ out.m_sSongFileName ++ ";"),
    FileOp.PutLine ("#HASMUSIC:" ++ (if out.m_bHasMusic then "1" else "0") ++ ";"),
    FileOp.PutLine ("#HASBANNER:" ++ (if out.m_bHasBanner then "1" else "0") ++ ";"),
    FileOp.PutLine ("#MUSICLENGTH:" ++ ext.fmt3 out.m_fMusicLengthSeconds ++ ";"),
    FileOp.PutLine "// end cache tags" ]

/-- The loop `FOREACH_CONST( Steps*, vpStepsToSave, s )` of `Write`: one `PutLine` of the chart
block per chart, until the end of the list or a failed `ASSERT`. -/
def Write.charts {F : Type} [DecidableEq F] (ext : Ext F) (out : Song F) (bSavingCache : Bool) :
    List (Steps F) → Emitted
  | [] => ⟨[], false⟩
  | pSteps :: rest =>
    match GetSSCNoteData ext out pSteps bSavingCache with
    | none => ⟨[], true⟩
    | some sTag =>
      let r := Write.charts ext out bSavingCache rest
      ⟨FileOp.PutLine sTag :: r.ops, r.aborted⟩

/-- The outcome of `NotesWriterSSC::Write`: the value returned (`none` when a failed `ASSERT`
stopped the program) and the storage operations performed. -/
structure WriteResult where
  ret : Option Bool
  trace : List StorageOp
deriving DecidableEq

/-- `NotesWriterSSC::Write( sPath, out, vpStepsToSave, bSavingCache )`. -/
def Write {F : Type} [DecidableEq F] (ext : Ext F) (st : Storage) (sPath : String)
    (out : Song F) (vpStepsToSave : List (Steps F)) (bSavingCache : Bool) : WriteResult :=
  let bSlowFlush := !bSavingCache
  if !st.OpenOk sPath then ⟨some false, [StorageOp.Open sPath bSlowFlush false]⟩
  else
    let header := WriteGlobalTags ext out
    if header.aborted then
      ⟨none, StorageOp.Open sPath bSlowFlush true :: performOps st sPath 0 header.ops⟩
    else
      let cache := if bSavingCache then Write.cacheTags ext out else []
      let charts := Write.charts ext out bSavingCache vpStepsToSave
      let trace := StorageOp.Open sPath bSlowFlush true
        :: performOps st sPath 0 (header.ops ++ cache ++ charts.ops)
      if charts.aborted then ⟨none, trace⟩
      else if !st.FlushOk then ⟨some false, trace ++ [StorageOp.Flush sPath false]⟩
      else ⟨some true, trace ++ [StorageOp.Flush sPath true]⟩

/-! ## Edit files -/

/-- `NotesWriterSSC::GetEditFileContents( pSong, pSteps, sOut )`: the final `sOut`. -/
def GetEditFileContents {F : Type} [DecidableEq F] (ext : Ext F) (pSong : Song F)
    (pSteps : Steps F) : Option String :=
  let sDir := pSong.GetSongDir
  let asParts := ext.split sDir "/" true
  let sDir := if asParts.length ≠ 0 then join "/" (asParts.drop 1) else sDir
  let sOut := "" ++ ("#SONG:" ++ sDir ++ ";\r\n")
  (GetSSCNoteData ext pSong pSteps false).map (fun sTag => sOut ++ sTag)

/-- `NotesWriterSSC::GetEditFileName( pSong, pSteps )`. -/
def GetEditFileName {F : Type} (ext : Ext F) (pSong : Song F) (pSteps : Steps F) : String :=
  let sFile := pSong.GetTranslitFullTitle ++ " - " ++ pSteps.GetDescription
  let sFile := if pSteps.m_StepsType = ext.StepsType_dance_double then sFile ++ " (doubles)"
    else sFile
  let sFile := sFile ++ ".edit"
  ext.MakeValidFilename sFile

/-- `ssprintf( DESTINATION_ALREADY_EXISTS.GetValue(), sPath.c_str() )`, for the text the source
gives the localized string. -/
def DESTINATION_ALREADY_EXISTS (sPath : String) : String :=
  "Error renaming file.  Destination file '" ++ sPath ++ "' already exists."

/-- `ssprintf( ERROR_WRITING_FILE.GetValue(), sPath.c_str() )`, for the text the source gives
the localized string. -/
def ERROR_WRITING_FILE (sPath : String) : String :=
  "Error writing file '" ++ sPath ++ "'."

/-- The outcome of `WriteEditFileToMachine`: the value returned (`none` when a failed `ASSERT`
stopped the program), the final `sErrorOut`, the chart, and the storage operations performed,
in order. -/
structure EditFileResult (F : Type) where
  ret : Option Bool
  sErrorOut : String
  pSteps : Steps F
  trace : List StorageOp

/-- The destination `sPath` that `WriteEditFileToMachine` computes. -/
def WriteEditFileToMachine.sPath {F : Type} (ext : Ext F) (pSong : Song F) (pSteps : Steps F) :
    String :=
  let sDir := ext.MachineProfileDir ++ ext.EDIT_STEPS_SUBDIR
  sDir ++ GetEditFileName ext pSong pSteps

/-- `NotesWriterSSC::WriteEditFileToMachine( pSong, pSteps, sErrorOut )`. -/
def WriteEditFileToMachine {F : Type} [DecidableEq F] (ext : Ext F) (st : Storage)
    (pSong : Song F) (pSteps : Steps F) (sErrorOut : String) : EditFileResult F :=
  let sPath := WriteEditFileToMachine.sPath ext pSong pSteps
  let bFileNameChanging := pSteps.GetSavedToDisk && decide (pSteps.GetFilename ≠ sPath)
  -- `DoesFileExist` is evaluated only when `bFileNameChanging` holds
  let check : List StorageOp :=
    if bFileNameChanging then [StorageOp.DoesFileExist sPath (st.DoesFileExist sPath)] else []
  if bFileNameChanging && st.DoesFileExist sPath then
    ⟨some false, DESTINATION_ALREADY_EXISTS sPath, pSteps, check⟩
  else if !st.OpenOk sPath then
    ⟨some false, ERROR_WRITING_FILE sPath, pSteps, check ++ [StorageOp.Open sPath true false]⟩
  else
    match GetEditFileContents ext pSong pSteps with
    | none => ⟨none, sErrorOut, pSteps, check ++ [StorageOp.Open sPath true true]⟩
    | some sTag =>
      if !st.WriteOk 0 sTag then
        ⟨some false, ERROR_WRITING_FILE sPath, pSteps,
          check ++ [StorageOp.Open sPath true true, StorageOp.PutLine sPath sTag false]⟩
      else if !st.FlushOk then
        ⟨some false, ERROR_WRITING_FILE sPath, pSteps,
          check ++ [StorageOp.Open sPath true true, StorageOp.PutLine sPath sTag true,
            StorageOp.Flush sPath false]⟩
      else
        let removal : List StorageOp :=
          if bFileNameChanging then
            [StorageOp.Remove pSteps.GetFilename (st.RemoveOk pSteps.GetFilename)]
          else []
        ⟨some true, sErrorOut, pSteps.SetFilename sPath,
          check ++ [StorageOp.Open sPath true true, StorageOp.PutLine sPath sTag true,
            StorageOp.Flush sPath true] ++ removal⟩

/-! ## A reference instance of the external collaborators

Used to evaluate the writer on concrete inputs.  Floats are exact fractions in lowest terms and
`%.3f` rounds to three decimals. -/

/-- A fraction `num / den`, kept in lowest terms by `Frac.make`. -/
structure Frac where
  num : Int
  den : Nat
deriving DecidableEq

/-- The fraction `n / d` in lowest terms. -/
def Frac.make (n : Int) (d : Nat) : Frac :=
  let g := Nat.gcd n.natAbs d
  ⟨n / g, d / g⟩

/-- Round `n / d` to the nearest natural number, ties to even. -/
def roundHalfEven (n d : Nat) : Nat :=
  let q := n / d
  let r := n % d
  if 2 * r < d then q else if d < 2 * r then q + 1 else if q % 2 = 0 then q else q + 1

/-- The decimal digits of `n`, padded with zeros on the left to at least `width` digits. -/
def padDigits (width n : Nat) : String :=
  let s := toString n
  String.mk (List.replicate (width - s.length) '0') ++ s

/-- Modelled from the spec: fixed-point formatting with `digits` decimals (`%.3f`, `%.2f`). -/
def Frac.fmt (digits : Nat) (q : Frac) : String :=
  let m := roundHalfEven (q.num.natAbs * 10 ^ digits) q.den
  (if q.num < 0 then "-" else "") ++ toString (m / 10 ^ digits) ++ "."
    ++ padDigits digits (m % 10 ^ digits)

/-- Drop the leading characters that are blanks (`"\r\n\t "`). -/
def dropBlanks : List Char → List Char
  | [] => []
  | c :: cs => if c = '\r' ∨ c = '\n' ∨ c = '\t' ∨ c = ' ' then dropBlanks cs else c :: cs

/-- Split a character list at every occurrence of `d`; `cur` holds the current piece
reversed. -/
def splitChars (d : Char) : List Char → List Char → List (List Char)
  | [], cur => [cur.reverse]
  | c :: cs, cur =>
    if c = d then cur.reverse :: splitChars d cs [] else splitChars d cs (c :: cur)

/-- Reference `split` for the one-character delimiters the writer uses. -/
def refSplit (sSource sDelimitor : String) (bIgnoreEmpty : Bool) : List String :=
  match sDelimitor.data with
  | [d] =>
    ((splitChars d sSource.data []).map String.mk).filter
      (fun piece => !bIgnoreEmpty || piece != "")
  | _ => [sSource]

/-- Reference `SmEscape`: a backslash before each backslash, colon and semicolon. -/
def refSmEscape (s : String) : String :=
  String.mk ((s.data.map (fun c => if c = '\\' ∨ c = ':' ∨ c = ';' then ['\\', c] else [c])).flatten)

/-- The reference instance: rows are 48 to the beat, timing data is already tidy, and
`ToVectorString` gives no strings. -/
def refExt : Ext Frac where
  NoteRowToBeat := fun row => Frac.make row 48
  fmt3 := Frac.fmt 3
  fmt2 := Frac.fmt 2
  isPositive := fun q => decide (0 < q.num)
  TidyUpData := fun timing => timing
  ToVectorString := fun _ _ => []
  SmEscape := refSmEscape
  TrimRight := fun s => String.mk (dropBlanks s.data.reverse).reverse
  TrimLeft := fun s => String.mk (dropBlanks s.data)
  split := refSplit
  MakeValidFilename := fun s => s
  StepsTypeName := fun st => if st = 1 then "dance-double" else "dance-single"
  DifficultyToString := fun d => if d = 0 then "Beginner" else "Edit"
  StepsType_dance_double := 1
  STEPFILE_VERSION_NUMBER := Frac.make 7 10
  NUM_BackgroundLayer := 2
  MachineProfileDir := "/Save/MachineProfile/"
  EDIT_STEPS_SUBDIR := "Edits/"

/-- A timing collection with one segment in each required category and in the tempo
category. -/
def sampleTiming : TimingData Frac where
  m_fBeat0OffsetInSeconds := Frac.make 0 1
  SEGMENT_BPM := [⟨0, Frac.make 120 1⟩]
  SEGMENT_STOP := []
  SEGMENT_DELAY := []
  SEGMENT_WARP := []
  SEGMENT_TIME_SIG := [⟨0, 4, 4⟩]
  SEGMENT_TICKCOUNT := [⟨0, 4⟩]
  SEGMENT_COMBO := [⟨0, 1, 1⟩]
  SEGMENT_SPEED := []
  SEGMENT_SCROLL := []
  SEGMENT_FAKE := []
  SEGMENT_LABEL := []

/-- A song with the sample timing. -/
def sampleSong : Song Frac where
  m_sMainTitle := "Title"
  m_sSubTitle := ""
  m_sArtist := "Artist"
  m_sMainTitleTranslit := ""
  m_sSubTitleTranslit := ""
  m_sArtistTranslit := ""
  m_sGenre := ""
  m_sOrigin := ""
  m_sCredit := ""
  m_sBannerFile := ""
  m_sBackgroundFile := ""
  m_sLyricsFile := ""
  m_sCDTitleFile := ""
  m_sMusicFile := "music.ogg"
  GetInstrumentTracksToVectorString := []
  m_SongTiming := sampleTiming
  m_fMusicSampleStartSeconds := Frac.make 0 1
  m_fMusicSampleLengthSeconds := Frac.make 12 1
  m_SelectionDisplay := .SHOW_ALWAYS
  m_DisplayBPMType := .DISPLAY_BPM_ACTUAL
  m_fSpecifiedBPMMin := Frac.make 0 1
  m_fSpecifiedBPMMax := Frac.make 0 1
  GetSpecifiedLastSecond := Frac.make 0 1
  GetBackgroundChanges := fun _ => []
  GetForegroundChanges := []
  m_vsKeysoundFile := []
  GetAttackString := ""
  GetFirstSecond := Frac.make 0 1
  GetLastSecond := Frac.make 90 1
  m_sSongFileName := "Songs/Pack/Title/Title.ssc"
  m_bHasMusic := true
  m_bHasBanner := false
  m_fMusicLengthSeconds := Frac.make 95 1
  GetSongDir := "Songs/Pack/Title/"
  GetTranslitFullTitle := "Title"

/-- An edit chart of the sample song, with the song's timing, not yet saved. -/
def sampleSteps : Steps Frac where
  m_StepsType := 0
  GetDescription := "My Edit"
  GetChartName := ""
  GetChartStyle := ""
  GetCredit := ""
  GetDifficulty := 5
  GetMeter := 9
  GetRadarValues := [[Frac.make 1 2]]
  m_Timing := sampleTiming
  GetAttackString := ""
  GetDisplayBPM := .DISPLAY_BPM_ACTUAL
  GetMinBPM := Frac.make 0 1
  GetMaxBPM := Frac.make 0 1
  GetSMNoteData := "0000\n,\n0000\n"
  GetSavedToDisk := false
  GetFilename := ""

/-- The sample chart, marked as saved to disk under an earlier name. -/
def savedSteps : Steps Frac :=
  { sampleSteps with GetSavedToDisk := true,
                     GetFilename := "/Save/MachineProfile/Edits/Title - Old.edit" }

/-- A storage layer holding the given files, on which every operation succeeds. -/
def goodStorage (files : String → Option String) : Storage where
  files := files
  OpenOk := fun _ => true
  WriteOk := fun _ _ => true
  FlushOk := true
  RemoveOk := fun _ => true

/-- A storage layer without files on which the open and the flush succeed and every write on
the open file fails. -/
def failingWrites : Storage where
  files := fun _ => none
  OpenOk := fun _ => true
  WriteOk := fun _ _ => false
  FlushOk := true
  RemoveOk := fun _ => true

/-- The sample timing with two labels: `a` at row 0 and `b` at row 48. -/
def twoLabels : TimingData Frac :=
  { sampleTiming with SEGMENT_LABEL := [⟨0, "a"⟩, ⟨48, "b"⟩] }

/-- The sample timing with one label at row 0 whose text holds a comma. -/
def commaLabel : TimingData Frac :=
  { sampleTiming with SEGMENT_LABEL := [⟨0, "a,1.000=b"⟩] }

/-- The sample timing with one label at row 0 whose text holds a line break and a comma. -/
def lineBreakLabel : TimingData Frac :=
  { sampleTiming with SEGMENT_LABEL := [⟨0, "a\r\n,1.000=b"⟩] }

/-- The outcome of a first save of the sample chart, which is not marked as saved to disk, on a
storage layer without files where every operation succeeds. -/
def firstSave : EditFileResult Frac :=
  WriteEditFileToMachine refExt (goodStorage fun _ => none) sampleSong sampleSteps ""

/-- The chart that the first save leaves, with its description changed afterwards. -/
def renamedSteps : Steps Frac :=
  { firstSave.pSteps with GetDescription := "Renamed" }

/-- The storage layer after the first save: the files its operations leave, with every
operation succeeding. -/
def storageAfterFirstSave : Storage :=
  goodStorage (applyTrace (fun _ => none) firstSave.trace)

/-! # Theorems -/

/-! ## Strings -/

theorem join_cons_eq (d e : String) (es : List String) :
    join d (e :: es) = e ++ String.join (es.map (fun x => d ++ x)) := by
  induction es generalizing e with
  | nil => apply String.ext; simp [join]
  | cons t rest ih =>
    rw [join, ih t]
    apply String.ext
    simp [String.data_join, String.data_append]

theorem tagPrefix_ne_comma (sTag : String) : "#" ++ sTag ++ ":" ≠ "," := by
  intro h
  have h2 := congrArg String.data h
  simp at h2

/-! ## `TimingTagWriter` -/

theorem foldl_Write_eq {α : Type} (f : TimingTagWriter → α → TimingTagWriter)
    (text : α → String)
    (hf : ∀ w x, f w x = ⟨w.m_pvsLines ++ [w.m_sNext ++ text x], ","⟩)
    (xs : List α) (w : TimingTagWriter) :
    xs.foldl f w = writeEntries w (xs.map text) := by
  induction xs generalizing w with
  | nil => rfl
  | cons x rest ih =>
    rw [List.foldl_cons, ih, hf]
    cases rest with
    | nil => simp [writeEntries]
    | cons y rest => simp [writeEntries]

theorem WriteCall.run_eq {F : Type} (ext : Ext F) (w : TimingTagWriter) (c : WriteCall F) :
    c.run ext w = ⟨w.m_pvsLines ++ [w.m_sNext ++ c.entry ext], ","⟩ := by
  cases c <;> rfl

theorem Finish_writeEntries_Init (w : TimingTagWriter) (sTag : String) (texts : List String) :
    ((writeEntries (w.Init sTag) texts).Finish).m_pvsLines
      = w.m_pvsLines ++ tagLines sTag texts := by
  cases texts with
  | nil =>
    simp [writeEntries, TimingTagWriter.Finish, TimingTagWriter.Init, tagLines,
      tagPrefix_ne_comma]
  | cons t ts =>
    simp [writeEntries, TimingTagWriter.Finish, TimingTagWriter.Init, tagLines,
      String.append_assoc]

theorem tagLines_length (sTag : String) (texts : List String) :
    (tagLines sTag texts).length = texts.length + 1 := by
  cases texts <;> simp [tagLines]

theorem stringJoin_tagLines (sTag : String) (texts : List String) :
    String.join (tagLines sTag texts) = "#" ++ sTag ++ ":" ++ join "," texts ++ ";" := by
  cases texts with
  | nil => apply String.ext; simp [tagLines, join, String.data_join]
  | cons t ts =>
    rw [join_cons_eq]
    apply String.ext
    simp [tagLines, String.data_join, String.data_append]

/-- C9 (Tag Line Builder).  For every tag name and every sequence of `n ≥ 0` calls of `Write`
overloads made between `Init(tag)` and `Finish()`: the line vector keeps its earlier lines and
gains exactly `n + 1` lines; their concatenation is `#tag:` followed by the entries
`<beat>=<value>` joined by `,` and a final `;`; line by line, the first entry carries `#tag:`,
every later entry one leading comma, and the last line is the `;` (carrying `#tag:` itself when
there is no entry). -/
theorem tag_line_builder {F : Type} (ext : Ext F) (w : TimingTagWriter) (sTag : String)
    (calls : List (WriteCall F)) :
    ∃ added : List String,
      ((calls.foldl (WriteCall.run ext) (w.Init sTag)).Finish).m_pvsLines
        = w.m_pvsLines ++ added ∧
      added.length = calls.length + 1 ∧
      String.join added
        = "#" ++ sTag ++ ":" ++ join "," (calls.map (WriteCall.entry ext)) ++ ";" ∧
      added = tagLines sTag (calls.map (WriteCall.entry ext)) := by
  refine ⟨tagLines sTag (calls.map (WriteCall.entry ext)), ?_, ?_, ?_, rfl⟩
  · rw [foldl_Write_eq (WriteCall.run ext) (WriteCall.entry ext)
      (fun w c => WriteCall.run_eq ext w c)]
    exact Finish_writeEntries_Init w sTag _
  · simp [tagLines_length]
  · exact stringJoin_tagLines sTag _

/-! ## `GetTimingTags` -/

theorem Finish_foldl_tag {α : Type} (f : TimingTagWriter → α → TimingTagWriter)
    (text : α → String)
    (hf : ∀ w x, f w x = ⟨w.m_pvsLines ++ [w.m_sNext ++ text x], ","⟩)
    (xs : List α) (w : TimingTagWriter) (sTag : String) :
    ((xs.foldl f (w.Init sTag)).Finish).m_pvsLines
      = w.m_pvsLines ++ tagLines sTag (xs.map text) := by
  rw [foldl_Write_eq f text hf]
  exact Finish_writeEntries_Init w sTag _

theorem Init_congr (w₁ w₂ : TimingTagWriter) (h : w₁.m_pvsLines = w₂.m_pvsLines)
    (sTag : String) : w₁.Init sTag = w₂.Init sTag := by
  simp [TimingTagWriter.Init, h]

theorem Finish_foldl_eq {α : Type} (f : TimingTagWriter → α → TimingTagWriter)
    (text : α → String)
    (hf : ∀ w x, f w x = ⟨w.m_pvsLines ++ [w.m_sNext ++ text x], ","⟩)
    (xs : List α) (w : TimingTagWriter) (sTag : String) :
    ((xs.foldl f (w.Init sTag)).Finish).Init
      = (⟨w.m_pvsLines ++ tagLines sTag (xs.map text), ""⟩ : TimingTagWriter).Init := by
  funext sTag₂
  exact Init_congr _ _ (Finish_foldl_tag f text hf xs w sTag) sTag₂

/-- The result of `GetTimingTags`: an abort when one of the three required categories of the
tidied collection is empty, otherwise the given lines followed by the timing block. -/
theorem GetTimingTags_eq {F : Type} (ext : Ext F) (lines : List String) (timing : TimingData F)
    (bIsSong : Bool) :
    GetTimingTags ext lines timing bIsSong
      = if (ext.TidyUpData timing).SEGMENT_TIME_SIG = []
            ∨ (ext.TidyUpData timing).SEGMENT_TICKCOUNT = []
            ∨ (ext.TidyUpData timing).SEGMENT_COMBO = [] then none
        else some (lines ++ timingBlock ext (ext.TidyUpData timing) bIsSong) := by
  unfold GetTimingTags
  simp only [TimingTagWriter.mk_]
  generalize ext.TidyUpData timing = td
  rw [Finish_foldl_eq (fun w (bs : BPMSegment F) => w.Write_float ext bs.GetRow bs.GetBPM)
    (fun s => entryText ext s.GetRow (ext.fmt3 s.GetBPM)) (fun _ _ => rfl)]
  rw [Finish_foldl_eq (fun w (ss : StopSegment F) => w.Write_float ext ss.GetRow ss.GetPause)
    (fun s => entryText ext s.GetRow (ext.fmt3 s.GetPause)) (fun _ _ => rfl)]
  rw [Finish_foldl_eq (fun w (ss : DelaySegment F) => w.Write_float ext ss.GetRow ss.GetPause)
    (fun s => entryText ext s.GetRow (ext.fmt3 s.GetPause)) (fun _ _ => rfl)]
  rw [Finish_foldl_eq (fun w (ws : WarpSegment F) => w.Write_float ext ws.GetRow ws.GetLength)
    (fun s => entryText ext s.GetRow (ext.fmt3 s.GetLength)) (fun _ _ => rfl)]
  rw [Finish_foldl_eq
    (fun w (ts : TimeSignatureSegment) => w.Write_int_int ext ts.GetRow ts.GetNum ts.GetDen)
    (fun s => entryText ext s.GetRow (fmtD s.GetNum ++ "=" ++ fmtD s.GetDen)) (fun _ _ => rfl)]
  rw [Finish_foldl_eq (fun w (ts : TickcountSegment) => w.Write_int ext ts.GetRow ts.GetTicks)
    (fun s => entryText ext s.GetRow (fmtD s.GetTicks)) (fun _ _ => rfl)]
  rw [Finish_foldl_eq
    (fun w (cs : ComboSegment) =>
      if cs.GetCombo = cs.GetMissCombo then w.Write_int ext cs.GetRow cs.GetCombo
      else w.Write_int_int ext cs.GetRow cs.GetCombo cs.GetMissCombo)
    (fun s => entryText ext s.GetRow (comboValue s))
    (fun w cs => by
      by_cases h : cs.GetCombo = cs.GetMissCombo
      · simp only [h, if_true, comboValue]; rfl
      · simp only [h, if_false, comboValue]; rfl)]
  rw [Finish_foldl_eq
    (fun w (ss : SpeedSegment F) =>
      w.Write_float_float_ushort ext ss.GetRow ss.GetRatio ss.GetLength ss.GetUnit)
    (fun s => entryText ext s.GetRow
      (ext.fmt3 s.GetRatio ++ "=" ++ ext.fmt3 s.GetLength ++ "=" ++ fmtHD s.GetUnit))
    (fun _ _ => rfl)]
  cases bIsSong with
  | true =>
    simp only [Bool.not_true, Bool.false_eq_true, if_false]
    rw [Finish_foldl_eq (fun w (ss : ScrollSegment F) => w.Write_float ext ss.GetRow ss.GetRatio)
      (fun s => entryText ext s.GetRow (ext.fmt3 s.GetRatio)) (fun _ _ => rfl)]
    rw [Finish_foldl_tag (fun w (ls : LabelSegment) => w.Write ext ls.GetRow ls.GetLabel)
      (fun s => entryText ext s.GetRow s.GetLabel) (fun _ _ => rfl)]
    simp only [List.isEmpty_iff, timingBlock, categoryOrder, tagName, segmentEntries,
      List.map, List.flatten, List.append_assoc, if_true, List.nil_append, List.cons_append,
      List.append_nil]
    by_cases h1 : td.SEGMENT_TIME_SIG = []
    · simp [h1]
    · by_cases h2 : td.SEGMENT_TICKCOUNT = []
      · simp [h1, h2]
      · by_cases h3 : td.SEGMENT_COMBO = []
        · simp [h1, h2, h3]
        · simp [h1, h2, h3]
  | false =>
    simp only [Bool.not_false, if_true]
    rw [Finish_foldl_eq (fun w (ss : ScrollSegment F) => w.Write_float ext ss.GetRow ss.GetRatio)
      (fun s => entryText ext s.GetRow (ext.fmt3 s.GetRatio)) (fun _ _ => rfl)]
    rw [Finish_foldl_eq (fun w (fs : FakeSegment F) => w.Write_float ext fs.GetRow fs.GetLength)
      (fun s => entryText ext s.GetRow (ext.fmt3 s.GetLength)) (fun _ _ => rfl)]
    rw [Finish_foldl_tag (fun w (ls : LabelSegment) => w.Write ext ls.GetRow ls.GetLabel)
      (fun s => entryText ext s.GetRow s.GetLabel) (fun _ _ => rfl)]
    simp only [List.isEmpty_iff, timingBlock, categoryOrder, tagName, segmentEntries,
      List.map, List.flatten, List.append_assoc, Bool.false_eq_true, if_false, List.nil_append,
      List.cons_append, List.append_nil]
    by_cases h1 : td.SEGMENT_TIME_SIG = []
    · simp [h1]
    · by_cases h2 : td.SEGMENT_TICKCOUNT = []
      · simp [h1, h2]
      · by_cases h3 : td.SEGMENT_COMBO = []
        · simp [h1, h2, h3]
        · simp [h1, h2, h3]

theorem tagLines_nil (sTag : String) : tagLines sTag [] = ["#" ++ sTag ++ ":;"] := by
  simp only [tagLines, String.append_assoc]
  rfl

theorem segmentEntries_eq_nil {F : Type} (ext : Ext F) (td : TimingData F)
    (c : TimingSegmentType) (h : td.size c = 0) : segmentEntries ext td c = [] := by
  cases c <;> simp_all [TimingData.size, segmentEntries]

/-- C6 (combo tie-break).  Whenever `GetTimingTags` runs to its end (the three required
categories of the tidied collection are non-empty), its output contains the `COMBOS` tag whose
entries are, segment by segment, `<beat>=<combo>` when the combo equals the miss combo and
`<beat>=<combo>=<missCombo>` otherwise.  With rows of 48 to the beat, the chart-level block of a
collection whose only combo segment is `{row 0, combo 4, miss 4}` has the entry `0.000=4`, and
with `{row 0, combo 4, miss 7}` the entry `0.000=4=7`. -/
theorem combo_tie_break {F : Type} (ext : Ext F) (lines : List String) (timing : TimingData F)
    (bIsSong : Bool)
    (hsig : (ext.TidyUpData timing).SEGMENT_TIME_SIG ≠ [])
    (htick : (ext.TidyUpData timing).SEGMENT_TICKCOUNT ≠ [])
    (hcombo : (ext.TidyUpData timing).SEGMENT_COMBO ≠ []) :
    (∃ pre post, GetTimingTags ext lines timing bIsSong
        = some (pre
            ++ tagLines "COMBOS" ((ext.TidyUpData timing).SEGMENT_COMBO.map (fun cs =>
                ext.fmt3 (ext.NoteRowToBeat cs.GetRow) ++ "="
                  ++ (if cs.GetCombo = cs.GetMissCombo then toString cs.GetCombo
                      else toString cs.GetCombo ++ "=" ++ toString cs.GetMissCombo)))
            ++ post))
    ∧ GetTimingTags refExt [] { sampleTiming with SEGMENT_COMBO := [⟨0, 4, 4⟩] } false
        = some ["#BPMS:0.000=120.000", ";", "#STOPS:;", "#DELAYS:;", "#WARPS:;",
            "#TIMESIGNATURES:0.000=4=4", ";", "#TICKCOUNTS:0.000=4", ";", "#COMBOS:0.000=4", ";",
            "#SPEEDS:;", "#SCROLLS:;", "#FAKES:;", "#LABELS:;"]
    ∧ GetTimingTags refExt [] { sampleTiming with SEGMENT_COMBO := [⟨0, 4, 7⟩] } false
        = some ["#BPMS:0.000=120.000", ";", "#STOPS:;", "#DELAYS:;", "#WARPS:;",
            "#TIMESIGNATURES:0.000=4=4", ";", "#TICKCOUNTS:0.000=4", ";", "#COMBOS:0.000=4=7",
            ";", "#SPEEDS:;", "#SCROLLS:;", "#FAKES:;", "#LABELS:;"] := by
  refine ⟨?_, by decide, by decide⟩
  rw [GetTimingTags_eq, if_neg (by simp [hsig, htick, hcombo])]
  have hentry : ∀ cs : ComboSegment,
      entryText ext cs.GetRow (comboValue cs)
        = ext.fmt3 (ext.NoteRowToBeat cs.GetRow) ++ "="
          ++ (if cs.GetCombo = cs.GetMissCombo then toString cs.GetCombo
              else toString cs.GetCombo ++ "=" ++ toString cs.GetMissCombo) := by
    intro cs
    simp only [entryText, comboValue, fmtD, String.append_assoc]
  have hsplit : categoryOrder bIsSong
      = [.SEGMENT_BPM, .SEGMENT_STOP, .SEGMENT_DELAY, .SEGMENT_WARP, .SEGMENT_TIME_SIG,
          .SEGMENT_TICKCOUNT] ++ [TimingSegmentType.SEGMENT_COMBO]
        ++ ([TimingSegmentType.SEGMENT_SPEED, TimingSegmentType.SEGMENT_SCROLL]
          ++ (if bIsSong then [] else [TimingSegmentType.SEGMENT_FAKE])
          ++ [TimingSegmentType.SEGMENT_LABEL]) := by
    cases bIsSong <;> rfl
  rw [timingBlock, hsplit, List.map_append, List.map_append, List.flatten_append,
    List.flatten_append]
  refine ⟨lines ++ (List.map
      (fun c => tagLines (tagName c) (segmentEntries ext (ext.TidyUpData timing) c))
      [.SEGMENT_BPM, .SEGMENT_STOP, .SEGMENT_DELAY, .SEGMENT_WARP, .SEGMENT_TIME_SIG,
        .SEGMENT_TICKCOUNT]).flatten,
    (List.map (fun c => tagLines (tagName c) (segmentEntries ext (ext.TidyUpData timing) c))
      (([TimingSegmentType.SEGMENT_SPEED, TimingSegmentType.SEGMENT_SCROLL]
        ++ if bIsSong = true then [] else [TimingSegmentType.SEGMENT_FAKE])
        ++ [TimingSegmentType.SEGMENT_LABEL])).flatten, ?_⟩
  have hc : (List.map
      (fun c => tagLines (tagName c) (segmentEntries ext (ext.TidyUpData timing) c))
      [TimingSegmentType.SEGMENT_COMBO]).flatten
      = tagLines "COMBOS" ((ext.TidyUpData timing).SEGMENT_COMBO.map (fun cs =>
          ext.fmt3 (ext.NoteRowToBeat cs.GetRow) ++ "="
            ++ (if cs.GetCombo = cs.GetMissCombo then toString cs.GetCombo
                else toString cs.GetCombo ++ "=" ++ toString cs.GetMissCombo))) := by
    simp only [List.map, List.flatten, tagName, segmentEntries, hentry, List.append_nil]
  rw [hc]
  simp only [List.append_assoc]

/-- C6, at the sample timing collection (one combo segment with combo 1 and miss combo 1). -/
theorem combo_tie_break_witness :
    (refExt.TidyUpData sampleTiming).SEGMENT_TIME_SIG ≠ []
    ∧ (refExt.TidyUpData sampleTiming).SEGMENT_TICKCOUNT ≠ []
    ∧ (refExt.TidyUpData sampleTiming).SEGMENT_COMBO ≠ []
    ∧ ∃ pre post, GetTimingTags refExt [] sampleTiming false
        = some (pre ++ ["#COMBOS:0.000=1", ";"] ++ post) :=
  ⟨by decide, by decide, by decide,
    (combo_tie_break refExt [] sampleTiming false (by decide) (by decide) (by decide)).1⟩

/-- C10 (empty-category robustness).  When the three required categories of the tidied
collection are non-empty, `GetTimingTags` does not fail: it returns the given lines followed by
one tag per category, in the fixed order, every category being present (`FAKES` in the
chart-level block only); and the tag of a category with zero segments is exactly the single line
`#<TAGNAME>:;`, the names of the eight optional categories being `BPMS`, `STOPS`, `DELAYS`,
`WARPS`, `SPEEDS`, `SCROLLS`, `FAKES` and `LABELS`. -/
theorem empty_category_robustness {F : Type} (ext : Ext F) (lines : List String)
    (timing : TimingData F) (bIsSong : Bool)
    (hsig : (ext.TidyUpData timing).SEGMENT_TIME_SIG ≠ [])
    (htick : (ext.TidyUpData timing).SEGMENT_TICKCOUNT ≠ [])
    (hcombo : (ext.TidyUpData timing).SEGMENT_COMBO ≠ []) :
    GetTimingTags ext lines timing bIsSong
      = some (lines ++ ((categoryOrder bIsSong).map
          (fun c => tagLines (tagName c) (segmentEntries ext (ext.TidyUpData timing) c))).flatten)
    ∧ (∀ c, (ext.TidyUpData timing).size c = 0 →
        tagLines (tagName c) (segmentEntries ext (ext.TidyUpData timing) c)
          = ["#" ++ tagName c ++ ":;"])
    ∧ (∀ c, c ≠ TimingSegmentType.SEGMENT_FAKE ∨ bIsSong = false → c ∈ categoryOrder bIsSong)
    ∧ [TimingSegmentType.SEGMENT_BPM, .SEGMENT_STOP, .SEGMENT_DELAY, .SEGMENT_WARP,
        .SEGMENT_SPEED, .SEGMENT_SCROLL, .SEGMENT_FAKE, .SEGMENT_LABEL].map
          (fun c => "#" ++ tagName c ++ ":;")
        = ["#BPMS:;", "#STOPS:;", "#DELAYS:;", "#WARPS:;", "#SPEEDS:;", "#SCROLLS:;",
            "#FAKES:;", "#LABELS:;"] := by
  refine ⟨?_, ?_, ?_, by decide⟩
  · rw [GetTimingTags_eq, if_neg (by simp [hsig, htick, hcombo])]
    rfl
  · intro c hc
    rw [segmentEntries_eq_nil ext _ c hc, tagLines_nil]
  · intro c hc
    cases bIsSong <;> cases c <;> simp_all [categoryOrder]

/-- C10, at the sample timing collection, whose eight optional categories other than the tempo
category are empty. -/
theorem empty_category_robustness_witness :
    (refExt.TidyUpData sampleTiming).SEGMENT_TIME_SIG ≠ []
    ∧ (refExt.TidyUpData sampleTiming).SEGMENT_TICKCOUNT ≠ []
    ∧ (refExt.TidyUpData sampleTiming).SEGMENT_COMBO ≠ []
    ∧ GetTimingTags refExt [] sampleTiming false
        = some ["#BPMS:0.000=120.000", ";", "#STOPS:;", "#DELAYS:;", "#WARPS:;",
            "#TIMESIGNATURES:0.000=4=4", ";", "#TICKCOUNTS:0.000=4", ";", "#COMBOS:0.000=1", ";",
            "#SPEEDS:;", "#SCROLLS:;", "#FAKES:;", "#LABELS:;"] :=
  ⟨by decide, by decide, by decide,
    (empty_category_robustness refExt [] sampleTiming false
      (by decide) (by decide) (by decide)).1⟩

/-! ## `GetSSCNoteData` and `WriteGlobalTags` -/

theorem GetTimingTags_onto {F : Type} (ext : Ext F) (lines : List String)
    (timing : TimingData F) (bIsSong : Bool) :
    GetTimingTags ext lines timing bIsSong
      = (GetTimingTags ext [] timing bIsSong).map (fun block => lines ++ block) := by
  rw [GetTimingTags_eq, GetTimingTags_eq ext []]
  split_ifs <;> simp

/-- C7 (chart timing-override omission).  The lines of a chart block are the eleven header
lines up to `#CREDIT`, then the timing section, then the remaining lines; header and remaining
lines do not depend on the song's or the chart's timing collection.  The timing section is empty
when the chart's collection equals the song's; when they differ it is `#OFFSET:<chart offset>;`
immediately followed by the complete `GetTimingTags` block of the chart's own timing (and
`GetSSCNoteData` is stopped exactly when that block's `ASSERT`s stop it).  The chart block is
these lines passed through `JoinLineList`.  With the sample song, a chart with the song's
collection gets no section, and a chart whose collection differs from the song's only in the
row of its tempo segment gets the full section. -/
theorem chart_timing_override {F : Type} [DecidableEq F] (ext : Ext F) (song : Song F)
    (in_ : Steps F) (bSavingCache : Bool) :
    (∃ rest : List String, ∀ songTiming chartTiming : TimingData F,
      GetSSCNoteData.lines ext { song with m_SongTiming := songTiming }
          { in_ with m_Timing := chartTiming } bSavingCache
        = if songTiming = chartTiming then some (GetSSCNoteData.head ext in_ ++ rest)
          else (GetTimingTags ext [] chartTiming false).map (fun block =>
            GetSSCNoteData.head ext in_
              ++ ["#OFFSET:" ++ ext.fmt3 chartTiming.m_fBeat0OffsetInSeconds ++ ";"]
              ++ block ++ rest))
    ∧ GetSSCNoteData ext song in_ bSavingCache
        = (GetSSCNoteData.lines ext song in_ bSavingCache).map (JoinLineList ext)
    ∧ (GetSSCNoteData.head ext in_).length = 11
    ∧ (GetSSCNoteData.head ext in_).getLast? = some ("#CREDIT:" ++ ext.SmEscape in_.GetCredit ++ ";")
    ∧ GetSSCNoteData.lines refExt sampleSong sampleSteps false
        = some ["", "//---------------dance-single - My Edit----------------", "#NOTEDATA:;",
            "#CHARTNAME:;", "#STEPSTYPE:dance-single;", "#DESCRIPTION:My Edit;", "#CHARTSTYLE:;",
            "#DIFFICULTY:Edit;", "#METER:9;", "#RADARVALUES:0.500;", "#CREDIT:;",
            "#NOTES:", "0000", ",", "0000", ";"]
    ∧ GetSSCNoteData.lines refExt sampleSong
          { sampleSteps with
            m_Timing := { sampleTiming with SEGMENT_BPM := [⟨48, Frac.make 120 1⟩] } } false
        = some ["", "//---------------dance-single - My Edit----------------", "#NOTEDATA:;",
            "#CHARTNAME:;", "#STEPSTYPE:dance-single;", "#DESCRIPTION:My Edit;", "#CHARTSTYLE:;",
            "#DIFFICULTY:Edit;", "#METER:9;", "#RADARVALUES:0.500;", "#CREDIT:;",
            "#OFFSET:0.000;", "#BPMS:1.000=120.000", ";", "#STOPS:;", "#DELAYS:;", "#WARPS:;",
            "#TIMESIGNATURES:0.000=4=4", ";", "#TICKCOUNTS:0.000=4", ";", "#COMBOS:0.000=1", ";",
            "#SPEEDS:;", "#SCROLLS:;", "#FAKES:;", "#LABELS:;",
            "#NOTES:", "0000", ",", "0000", ";"] := by
  refine ⟨⟨(if song.GetAttackString ≠ in_.GetAttackString then
        ["#ATTACKS:" ++ in_.GetAttackString ++ ";"] else [])
      ++ GetSSCNoteData.displayBPM ext in_ ++ GetSSCNoteData.notes ext song in_ bSavingCache,
    ?_⟩, rfl, rfl, rfl, by decide, by decide⟩
  intro songTiming chartTiming
  have hhead : ∀ t : TimingData F,
      GetSSCNoteData.head ext { in_ with m_Timing := t } = GetSSCNoteData.head ext in_ := by
    intro t; rfl
  have hdisp : ∀ t : TimingData F,
      GetSSCNoteData.displayBPM ext { in_ with m_Timing := t }
        = GetSSCNoteData.displayBPM ext in_ := by
    intro t; rfl
  have hnotes : ∀ (t t' : TimingData F),
      GetSSCNoteData.notes ext { song with m_SongTiming := t } { in_ with m_Timing := t' }
        bSavingCache = GetSSCNoteData.notes ext song in_ bSavingCache := by
    intro t t'; rfl
  unfold GetSSCNoteData.lines
  simp only [hhead, hdisp, hnotes, TimingData.ne]
  by_cases h : songTiming = chartTiming
  · subst h
    by_cases ha : song.GetAttackString = in_.GetAttackString <;>
      simp [ha, List.append_assoc]
  · rw [GetTimingTags_onto]
    cases hb : GetTimingTags ext [] chartTiming false with
    | none => simp [h]
    | some block =>
      by_cases ha : song.GetAttackString = in_.GetAttackString <;>
        simp [h, ha, List.append_assoc]

theorem WriteGlobalTags_displayBPM_eq {F : Type} [DecidableEq F] (ext : Ext F) (out : Song F) :
    WriteGlobalTags.displayBPM ext out
      = (displayBPMLines ext out.m_DisplayBPMType out.m_fSpecifiedBPMMin
          out.m_fSpecifiedBPMMax).map FileOp.PutLine := by
  unfold WriteGlobalTags.displayBPM displayBPMLines
  cases out.m_DisplayBPMType with
  | DISPLAY_BPM_SPECIFIED =>
    by_cases h : out.m_fSpecifiedBPMMin = out.m_fSpecifiedBPMMax <;> simp [h]
  | _ => simp

theorem GetSSCNoteData_displayBPM_eq {F : Type} [DecidableEq F] (ext : Ext F) (in_ : Steps F) :
    GetSSCNoteData.displayBPM ext in_
      = displayBPMLines ext in_.GetDisplayBPM in_.GetMinBPM in_.GetMaxBPM := by
  unfold GetSSCNoteData.displayBPM displayBPMLines
  cases in_.GetDisplayBPM <;> rfl

/-- C8 (display-tempo policy).  The song header and the chart block each consist of a first
part, the `DISPLAYBPM` lines of the policy, and a last part, where first and last part do not
depend on the policy nor on the two specified tempos (a header stopped by the `SELECTABLE`
assertion ends before the policy is looked at).  The `DISPLAYBPM` lines are: none for `Actual`;
exactly `#DISPLAYBPM:<min>;` for `Specified` with `min = max`; exactly `#DISPLAYBPM:<min>:<max>;`
for `Specified` with `min ≠ max`; exactly `#DISPLAYBPM:*;` for `Random`; so at most one line in
every case.  With three-decimal printing, `Specified{120,120}` gives `#DISPLAYBPM:120.000;` and
`Specified{120,140}` gives `#DISPLAYBPM:120.000:140.000;`, in the header and in the chart
block. -/
theorem display_tempo_policy {F : Type} [DecidableEq F] (ext : Ext F) (out : Song F)
    (song : Song F) (in_ : Steps F) (bSavingCache : Bool) :
    (∃ pre post : List FileOp, ∀ (policy : DisplayBPM) (fMin fMax : F),
      WriteGlobalTags ext { out with m_DisplayBPMType := policy, m_fSpecifiedBPMMin := fMin,
                                     m_fSpecifiedBPMMax := fMax }
        = match out.m_SelectionDisplay with
          | .other _ => ⟨pre, true⟩
          | _ => ⟨pre ++ (displayBPMLines ext policy fMin fMax).map FileOp.PutLine ++ post,
                  false⟩)
    ∧ (∃ (pre : Option (List String)) (post : List String),
        ∀ (policy : DisplayBPM) (fMin fMax : F),
          GetSSCNoteData.lines ext song
              { in_ with GetDisplayBPM := policy, GetMinBPM := fMin, GetMaxBPM := fMax }
              bSavingCache
            = pre.map (fun p => p ++ displayBPMLines ext policy fMin fMax ++ post))
    ∧ (∀ fMin fMax : F, displayBPMLines ext .DISPLAY_BPM_ACTUAL fMin fMax = [])
    ∧ (∀ fMin fMax : F, fMin = fMax →
        displayBPMLines ext .DISPLAY_BPM_SPECIFIED fMin fMax
          = ["#DISPLAYBPM:" ++ ext.fmt3 fMin ++ ";"])
    ∧ (∀ fMin fMax : F, fMin ≠ fMax →
        displayBPMLines ext .DISPLAY_BPM_SPECIFIED fMin fMax
          = ["#DISPLAYBPM:" ++ ext.fmt3 fMin ++ ":" ++ ext.fmt3 fMax ++ ";"])
    ∧ (∀ fMin fMax : F, displayBPMLines ext .DISPLAY_BPM_RANDOM fMin fMax = ["#DISPLAYBPM:*;"])
    ∧ (∀ (policy : DisplayBPM) (fMin fMax : F),
        (displayBPMLines ext policy fMin fMax).length ≤ 1)
    ∧ WriteGlobalTags.displayBPM refExt
          { sampleSong with m_DisplayBPMType := .DISPLAY_BPM_SPECIFIED,
                            m_fSpecifiedBPMMin := Frac.make 120 1,
                            m_fSpecifiedBPMMax := Frac.make 120 1 }
        = [FileOp.PutLine "#DISPLAYBPM:120.000;"]
    ∧ WriteGlobalTags.displayBPM refExt
          { sampleSong with m_DisplayBPMType := .DISPLAY_BPM_SPECIFIED,
                            m_fSpecifiedBPMMin := Frac.make 120 1,
                            m_fSpecifiedBPMMax := Frac.make 140 1 }
        = [FileOp.PutLine "#DISPLAYBPM:120.000:140.000;"]
    ∧ GetSSCNoteData.displayBPM refExt
          { sampleSteps with GetDisplayBPM := .DISPLAY_BPM_SPECIFIED,
                             GetMinBPM := Frac.make 120 1, GetMaxBPM := Frac.make 120 1 }
        = ["#DISPLAYBPM:120.000;"]
    ∧ GetSSCNoteData.displayBPM refExt
          { sampleSteps with GetDisplayBPM := .DISPLAY_BPM_SPECIFIED,
                             GetMinBPM := Frac.make 120 1, GetMaxBPM := Frac.make 140 1 }
        = ["#DISPLAYBPM:120.000:140.000;"] := by
  refine ⟨?_, ?_, fun _ _ => rfl, ?_, ?_, fun _ _ => rfl, ?_,
    by decide, by decide, by decide, by decide⟩
  · have key : ∀ (policy : DisplayBPM) (fMin fMax : F),
        WriteGlobalTags ext { out with m_DisplayBPMType := policy, m_fSpecifiedBPMMin := fMin,
                                       m_fSpecifiedBPMMax := fMax }
          = match out.m_SelectionDisplay with
            | .SHOW_ALWAYS =>
              ⟨WriteGlobalTags.head ext out ++ FileOp.Write "YES" :: ([FileOp.PutLine ";"]
                ++ (displayBPMLines ext policy fMin fMax).map FileOp.PutLine
                ++ WriteGlobalTags.rest ext out), false⟩
            | .SHOW_NEVER =>
              ⟨WriteGlobalTags.head ext out ++ FileOp.Write "NO" :: ([FileOp.PutLine ";"]
                ++ (displayBPMLines ext policy fMin fMax).map FileOp.PutLine
                ++ WriteGlobalTags.rest ext out), false⟩
            | .other _ => ⟨WriteGlobalTags.head ext out, true⟩ := by
      intro policy fMin fMax
      unfold WriteGlobalTags
      rw [WriteGlobalTags_displayBPM_eq]
      rfl
    have hshape : ∃ pre post : List FileOp, ∀ (policy : DisplayBPM) (fMin fMax : F),
        (match out.m_SelectionDisplay with
          | .SHOW_ALWAYS =>
            (⟨WriteGlobalTags.head ext out ++ FileOp.Write "YES" :: ([FileOp.PutLine ";"]
              ++ (displayBPMLines ext policy fMin fMax).map FileOp.PutLine
              ++ WriteGlobalTags.rest ext out), false⟩ : Emitted)
          | .SHOW_NEVER =>
            ⟨WriteGlobalTags.head ext out ++ FileOp.Write "NO" :: ([FileOp.PutLine ";"]
              ++ (displayBPMLines ext policy fMin fMax).map FileOp.PutLine
              ++ WriteGlobalTags.rest ext out), false⟩
          | .other _ => ⟨WriteGlobalTags.head ext out, true⟩)
        = match out.m_SelectionDisplay with
          | .other _ => ⟨pre, true⟩
          | _ => ⟨pre ++ (displayBPMLines ext policy fMin fMax).map FileOp.PutLine ++ post,
                  false⟩ := by
      cases out.m_SelectionDisplay with
      | SHOW_ALWAYS =>
        exact ⟨WriteGlobalTags.head ext out ++ [FileOp.Write "YES", FileOp.PutLine ";"],
          WriteGlobalTags.rest ext out, fun policy fMin fMax => by simp⟩
      | SHOW_NEVER =>
        exact ⟨WriteGlobalTags.head ext out ++ [FileOp.Write "NO", FileOp.PutLine ";"],
          WriteGlobalTags.rest ext out, fun policy fMin fMax => by simp⟩
      | other v => exact ⟨WriteGlobalTags.head ext out, [], fun policy fMin fMax => rfl⟩
    obtain ⟨pre, post, h⟩ := hshape
    exact ⟨pre, post, fun policy fMin fMax => (key policy fMin fMax).trans (h policy fMin fMax)⟩
  · refine ⟨((if TimingData.ne song.m_SongTiming in_.m_Timing then
          GetTimingTags ext
            (GetSSCNoteData.head ext in_
              ++ ["#OFFSET:" ++ ext.fmt3 in_.m_Timing.m_fBeat0OffsetInSeconds ++ ";"])
            in_.m_Timing false
        else some (GetSSCNoteData.head ext in_)).map (fun lines =>
          if song.GetAttackString ≠ in_.GetAttackString then
            lines ++ ["#ATTACKS:" ++ in_.GetAttackString ++ ";"]
          else lines)),
      GetSSCNoteData.notes ext song in_ bSavingCache, fun policy fMin fMax => ?_⟩
    have hhead : GetSSCNoteData.head ext
        { in_ with GetDisplayBPM := policy, GetMinBPM := fMin, GetMaxBPM := fMax }
          = GetSSCNoteData.head ext in_ := rfl
    have hnotes : GetSSCNoteData.notes ext song
        { in_ with GetDisplayBPM := policy, GetMinBPM := fMin, GetMaxBPM := fMax } bSavingCache
          = GetSSCNoteData.notes ext song in_ bSavingCache := rfl
    unfold GetSSCNoteData.lines
    simp only [hhead, hnotes, GetSSCNoteData_displayBPM_eq]
    generalize (if TimingData.ne song.m_SongTiming in_.m_Timing then
          GetTimingTags ext
            (GetSSCNoteData.head ext in_
              ++ ["#OFFSET:" ++ ext.fmt3 in_.m_Timing.m_fBeat0OffsetInSeconds ++ ";"])
            in_.m_Timing false
        else some (GetSSCNoteData.head ext in_)) = timed
    cases timed with
    | none => rfl
    | some lines => simp
  · intro fMin fMax h
    simp [displayBPMLines, h]
  · intro fMin fMax h
    simp [displayBPMLines, h]
  · intro policy fMin fMax
    unfold displayBPMLines
    cases policy with
    | DISPLAY_BPM_SPECIFIED => by_cases h : fMin = fMax <;> simp [h]
    | _ => simp

/-! ## `WriteEditFileToMachine` -/

theorem mem_of_eq_append_cons {α : Type} (l pre post : List α) (a : α)
    (h : l = pre ++ a :: post) : a ∈ l := by
  rw [h]; simp

theorem split_at_last {α : Type} (P : α → Prop) (l : List α) (hl : ∀ x ∈ l, ¬ P x) (a : α)
    (pre post : List α) (b : α) (hb : P b) (h : l ++ [a] = pre ++ b :: post) :
    pre = l ∧ b = a ∧ post = [] := by
  induction l generalizing pre with
  | nil =>
    cases pre with
    | nil => simp at h; simp [h]
    | cons x pre => simp at h
  | cons y l ih =>
    cases pre with
    | nil =>
      simp at h
      exact absurd (h.1 ▸ hb) (hl y (by simp))
    | cons x pre =>
      simp at h
      obtain ⟨hpre, hba, hpost⟩ := ih (fun x hx => hl x (by simp [hx])) pre h.2
      simp [h.1, hpre, hba, hpost]

/-- The runs of `WriteEditFileToMachine`: either the call does not return true, the chart is
unchanged and nothing is removed; or it returns true after the open, the `PutLine` and the
`Flush` succeeded, with one of two traces according to `bFileNameChanging`. -/
theorem WriteEditFileToMachine_run {F : Type} [DecidableEq F] (ext : Ext F) (st : Storage)
    (pSong : Song F) (pSteps : Steps F) (sErrorOut : String) :
    ((WriteEditFileToMachine ext st pSong pSteps sErrorOut).ret ≠ some true
      ∧ (WriteEditFileToMachine ext st pSong pSteps sErrorOut).pSteps = pSteps
      ∧ ∀ p ok, StorageOp.Remove p ok
          ∉ (WriteEditFileToMachine ext st pSong pSteps sErrorOut).trace)
    ∨ (∃ sTag, GetEditFileContents ext pSong pSteps = some sTag
      ∧ st.OpenOk (WriteEditFileToMachine.sPath ext pSong pSteps) = true
      ∧ st.WriteOk 0 sTag = true ∧ st.FlushOk = true
      ∧ (WriteEditFileToMachine ext st pSong pSteps sErrorOut).ret = some true
      ∧ (WriteEditFileToMachine ext st pSong pSteps sErrorOut).sErrorOut = sErrorOut
      ∧ (WriteEditFileToMachine ext st pSong pSteps sErrorOut).pSteps
          = pSteps.SetFilename (WriteEditFileToMachine.sPath ext pSong pSteps)
      ∧ ((pSteps.GetSavedToDisk = true
            ∧ pSteps.GetFilename ≠ WriteEditFileToMachine.sPath ext pSong pSteps
            ∧ st.DoesFileExist (WriteEditFileToMachine.sPath ext pSong pSteps) = false
            ∧ (WriteEditFileToMachine ext st pSong pSteps sErrorOut).trace
              = [StorageOp.DoesFileExist (WriteEditFileToMachine.sPath ext pSong pSteps) false,
                 StorageOp.Open (WriteEditFileToMachine.sPath ext pSong pSteps) true true,
                 StorageOp.PutLine (WriteEditFileToMachine.sPath ext pSong pSteps) sTag true,
                 StorageOp.Flush (WriteEditFileToMachine.sPath ext pSong pSteps) true,
                 StorageOp.Remove pSteps.GetFilename (st.RemoveOk pSteps.GetFilename)])
          ∨ (¬ (pSteps.GetSavedToDisk = true
                ∧ pSteps.GetFilename ≠ WriteEditFileToMachine.sPath ext pSong pSteps)
            ∧ (WriteEditFileToMachine ext st pSong pSteps sErrorOut).trace
              = [StorageOp.Open (WriteEditFileToMachine.sPath ext pSong pSteps) true true,
                 StorageOp.PutLine (WriteEditFileToMachine.sPath ext pSong pSteps) sTag true,
                 StorageOp.Flush (WriteEditFileToMachine.sPath ext pSong pSteps) true]))) := by
  unfold WriteEditFileToMachine
  generalize WriteEditFileToMachine.sPath ext pSong pSteps = sPath
  by_cases hch : pSteps.GetSavedToDisk = true ∧ pSteps.GetFilename ≠ sPath
  · obtain ⟨hs, hne⟩ := hch
    by_cases hex : st.DoesFileExist sPath = true
    · left; simp [hs, hne, hex]
    · by_cases hop : st.OpenOk sPath = true
      · cases hc : GetEditFileContents ext pSong pSteps with
        | none => left; simp [hs, hne, hex, hop]
        | some sTag =>
          by_cases hw : st.WriteOk 0 sTag = true
          · by_cases hf : st.FlushOk = true
            · right
              refine ⟨sTag, rfl, hop, hw, hf, ?_⟩
              simp [hs, hne, hex, hop, hw, hf]
            · left; simp [hs, hne, hex, hop, hw, hf]
          · left; simp [hs, hne, hex, hop, hw]
      · left; simp [hs, hne, hex, hop]
  · have hb : (pSteps.GetSavedToDisk && decide (pSteps.GetFilename ≠ sPath)) = false := by
      cases hs : pSteps.GetSavedToDisk with
      | false => simp
      | true =>
        have : pSteps.GetFilename = sPath := by
          by_contra hne; exact hch ⟨hs, hne⟩
        simp [this]
    simp only [hb, Bool.false_and, Bool.false_eq_true, if_false, List.nil_append,
      List.append_nil]
    by_cases hop : st.OpenOk sPath = true
    · cases hc : GetEditFileContents ext pSong pSteps with
      | none => left; simp [hop]
      | some sTag =>
        by_cases hw : st.WriteOk 0 sTag = true
        · by_cases hf : st.FlushOk = true
          · right
            refine ⟨sTag, rfl, hop, hw, hf, ?_⟩
            simp [hop, hw, hf, hch]
          · left; simp [hop, hw, hf]
        · left; simp [hop, hw]
    · left; simp [hop]

/-- C1 (write before remove).  In every run of `WriteEditFileToMachine`: if the collision check
finds the destination taken, or the open, the `PutLine` or the `Flush` of the destination fails,
or the call does not return true for any reason, then no `Remove` is performed at all; and
whenever a `Remove` is performed, it is the last storage operation of the run, no `Remove`
precedes it, and it comes right after the successful open, the successful `PutLine` and the
successful `Flush` of the destination path, in this order. -/
theorem remove_only_after_write {F : Type} [DecidableEq F] (ext : Ext F) (st : Storage)
    (pSong : Song F) (pSteps : Steps F) (sErrorOut : String) :
    ((StorageOp.DoesFileExist (WriteEditFileToMachine.sPath ext pSong pSteps) true
          ∈ (WriteEditFileToMachine ext st pSong pSteps sErrorOut).trace
        ∨ StorageOp.Open (WriteEditFileToMachine.sPath ext pSong pSteps) true false
          ∈ (WriteEditFileToMachine ext st pSong pSteps sErrorOut).trace
        ∨ (∃ sTag, StorageOp.PutLine (WriteEditFileToMachine.sPath ext pSong pSteps) sTag false
          ∈ (WriteEditFileToMachine ext st pSong pSteps sErrorOut).trace)
        ∨ StorageOp.Flush (WriteEditFileToMachine.sPath ext pSong pSteps) false
          ∈ (WriteEditFileToMachine ext st pSong pSteps sErrorOut).trace
        ∨ (WriteEditFileToMachine ext st pSong pSteps sErrorOut).ret ≠ some true) →
      ∀ p ok, StorageOp.Remove p ok
        ∉ (WriteEditFileToMachine ext st pSong pSteps sErrorOut).trace)
    ∧ (∀ pre p ok post,
        (WriteEditFileToMachine ext st pSong pSteps sErrorOut).trace
          = pre ++ StorageOp.Remove p ok :: post →
        post = [] ∧ (∀ q okq, StorageOp.Remove q okq ∉ pre)
        ∧ ∃ pre₀ sTag, pre = pre₀ ++
            [StorageOp.Open (WriteEditFileToMachine.sPath ext pSong pSteps) true true,
             StorageOp.PutLine (WriteEditFileToMachine.sPath ext pSong pSteps) sTag true,
             StorageOp.Flush (WriteEditFileToMachine.sPath ext pSong pSteps) true]) := by
  rcases WriteEditFileToMachine_run ext st pSong pSteps sErrorOut with
    ⟨hret, -, hno⟩ | ⟨sTag, -, -, -, -, hret, -, -, htrace⟩
  · refine ⟨fun _ => hno, fun pre p ok post h => ?_⟩
    exact absurd (mem_of_eq_append_cons _ pre post _ h) (hno p ok)
  · rcases htrace with ⟨-, hne, -, htrace⟩ | ⟨-, htrace⟩
    · refine ⟨fun hfail => ?_, fun pre p ok post h => ?_⟩
      · rw [htrace, hret] at hfail
        simp at hfail
      · rw [htrace] at h
        have hsplit := split_at_last (fun x => ∃ q okq, x = StorageOp.Remove q okq)
          [StorageOp.DoesFileExist (WriteEditFileToMachine.sPath ext pSong pSteps) false,
            StorageOp.Open (WriteEditFileToMachine.sPath ext pSong pSteps) true true,
            StorageOp.PutLine (WriteEditFileToMachine.sPath ext pSong pSteps) sTag true,
            StorageOp.Flush (WriteEditFileToMachine.sPath ext pSong pSteps) true]
          (by simp)
          (StorageOp.Remove pSteps.GetFilename (st.RemoveOk pSteps.GetFilename))
          pre post (StorageOp.Remove p ok) ⟨p, ok, rfl⟩ (by simpa using h)
        obtain ⟨hpre, -, hpost⟩ := hsplit
        refine ⟨hpost, ?_, [StorageOp.DoesFileExist
          (WriteEditFileToMachine.sPath ext pSong pSteps) false], sTag, ?_⟩
        · rw [hpre]; simp
        · rw [hpre]; rfl
    · refine ⟨fun hfail => ?_, fun pre p ok post h => ?_⟩
      · rw [htrace, hret] at hfail
        simp at hfail
      · rw [htrace] at h
        have := mem_of_eq_append_cons _ pre post _ h
        simp at this

/-- C1, at a run that removes: the saved sample chart, whose destination differs from its
recorded path, on a storage layer where no file exists and every operation succeeds. -/
theorem remove_only_after_write_witness :
    (WriteEditFileToMachine refExt (goodStorage fun _ => none) sampleSong savedSteps "").trace
        = [StorageOp.DoesFileExist "/Save/MachineProfile/Edits/Title - My Edit.edit" false,
           StorageOp.Open "/Save/MachineProfile/Edits/Title - My Edit.edit" true true,
           StorageOp.PutLine "/Save/MachineProfile/Edits/Title - My Edit.edit"
             ((GetEditFileContents refExt sampleSong savedSteps).getD "") true,
           StorageOp.Flush "/Save/MachineProfile/Edits/Title - My Edit.edit" true]
          ++ StorageOp.Remove "/Save/MachineProfile/Edits/Title - Old.edit" true :: []
    ∧ ([] : List StorageOp) = []
    ∧ (∀ q okq, StorageOp.Remove q okq ∉
        [StorageOp.DoesFileExist "/Save/MachineProfile/Edits/Title - My Edit.edit" false,
         StorageOp.Open "/Save/MachineProfile/Edits/Title - My Edit.edit" true true,
         StorageOp.PutLine "/Save/MachineProfile/Edits/Title - My Edit.edit"
           ((GetEditFileContents refExt sampleSong savedSteps).getD "") true,
         StorageOp.Flush "/Save/MachineProfile/Edits/Title - My Edit.edit" true])
    ∧ ∃ pre₀ sTag,
        [StorageOp.DoesFileExist "/Save/MachineProfile/Edits/Title - My Edit.edit" false,
         StorageOp.Open "/Save/MachineProfile/Edits/Title - My Edit.edit" true true,
         StorageOp.PutLine "/Save/MachineProfile/Edits/Title - My Edit.edit"
           ((GetEditFileContents refExt sampleSong savedSteps).getD "") true,
         StorageOp.Flush "/Save/MachineProfile/Edits/Title - My Edit.edit" true]
        = pre₀ ++
          [StorageOp.Open (WriteEditFileToMachine.sPath refExt sampleSong savedSteps) true true,
           StorageOp.PutLine (WriteEditFileToMachine.sPath refExt sampleSong savedSteps) sTag true,
           StorageOp.Flush (WriteEditFileToMachine.sPath refExt sampleSong savedSteps) true] :=
  ⟨by decide,
    (remove_only_after_write refExt (goodStorage fun _ => none) sampleSong savedSteps "").2
      [StorageOp.DoesFileExist "/Save/MachineProfile/Edits/Title - My Edit.edit" false,
       StorageOp.Open "/Save/MachineProfile/Edits/Title - My Edit.edit" true true,
       StorageOp.PutLine "/Save/MachineProfile/Edits/Title - My Edit.edit"
         ((GetEditFileContents refExt sampleSong savedSteps).getD "") true,
       StorageOp.Flush "/Save/MachineProfile/Edits/Title - My Edit.edit" true]
      "/Save/MachineProfile/Edits/Title - Old.edit" true [] (by decide)⟩

theorem sPath_SetFilename {F : Type} (ext : Ext F) (pSong : Song F) (pSteps : Steps F)
    (fn : String) :
    WriteEditFileToMachine.sPath ext pSong (pSteps.SetFilename fn)
      = WriteEditFileToMachine.sPath ext pSong pSteps := rfl

/-- C3, as stated, fails: the sample chart, not marked as saved to disk, is saved by
`WriteEditFileToMachine` to `Title - My Edit.edit`, which records that path and leaves the mark
unset; its description is then changed, so that the destination is `Title - Renamed.edit`, where
no file exists; the next call, whose open, write and flush succeed, returns true and records
the new path, and its storage operations are the open, the `PutLine` and the `Flush` only: no
`Remove` is performed and the file at the old path is still there. -/
theorem rename_after_first_save_keeps_old :
    firstSave.ret = some true
    ∧ firstSave.pSteps.GetFilename = "/Save/MachineProfile/Edits/Title - My Edit.edit"
    ∧ firstSave.pSteps.GetSavedToDisk = false
    ∧ WriteEditFileToMachine.sPath refExt sampleSong renamedSteps
        = "/Save/MachineProfile/Edits/Title - Renamed.edit"
    ∧ storageAfterFirstSave.DoesFileExist "/Save/MachineProfile/Edits/Title - My Edit.edit"
        = true
    ∧ storageAfterFirstSave.DoesFileExist "/Save/MachineProfile/Edits/Title - Renamed.edit"
        = false
    ∧ (WriteEditFileToMachine refExt storageAfterFirstSave sampleSong renamedSteps "").ret
        = some true
    ∧ (WriteEditFileToMachine refExt storageAfterFirstSave sampleSong renamedSteps "").trace
        = [StorageOp.Open "/Save/MachineProfile/Edits/Title - Renamed.edit" true true,
           StorageOp.PutLine "/Save/MachineProfile/Edits/Title - Renamed.edit"
             ((GetEditFileContents refExt sampleSong renamedSteps).getD "") true,
           StorageOp.Flush "/Save/MachineProfile/Edits/Title - Renamed.edit" true]
    ∧ (WriteEditFileToMachine refExt storageAfterFirstSave sampleSong renamedSteps
        "").pSteps.GetFilename = "/Save/MachineProfile/Edits/Title - Renamed.edit"
    ∧ (applyTrace storageAfterFirstSave.files
        (WriteEditFileToMachine refExt storageAfterFirstSave sampleSong renamedSteps "").trace
        "/Save/MachineProfile/Edits/Title - My Edit.edit").isSome = true := by
  decide

/-- C3 (amended).  For a chart with recorded path `A` whose computed destination `B` differs from
`A` and holds no file, when the open, the write of the edit contents and the flush succeed:
`WriteEditFileToMachine` returns true, leaves the recorded path equal to `B` and leaves the
saved-to-disk mark as it was.  When the chart is marked as saved to disk, the storage operations
are, in order, the existence query, the open, the `PutLine` and the `Flush` of `B`, and then
exactly one `Remove`, of `A`; when it is not marked, they are the open, the `PutLine` and the
`Flush` of `B`, and nothing is removed. -/
theorem rename_removes_old {F : Type} [DecidableEq F] (ext : Ext F) (st : Storage)
    (pSong : Song F) (pSteps : Steps F) (sErrorOut A sTag : String)
    (hrecorded : pSteps.GetFilename = A)
    (hchanged : WriteEditFileToMachine.sPath ext pSong pSteps ≠ A)
    (hfree : st.DoesFileExist (WriteEditFileToMachine.sPath ext pSong pSteps) = false)
    (hopen : st.OpenOk (WriteEditFileToMachine.sPath ext pSong pSteps) = true)
    (hcontents : GetEditFileContents ext pSong pSteps = some sTag)
    (hwrite : st.WriteOk 0 sTag = true)
    (hflush : st.FlushOk = true) :
    (WriteEditFileToMachine ext st pSong pSteps sErrorOut).ret = some true
    ∧ (WriteEditFileToMachine ext st pSong pSteps sErrorOut).pSteps.GetFilename
        = WriteEditFileToMachine.sPath ext pSong pSteps
    ∧ (WriteEditFileToMachine ext st pSong pSteps sErrorOut).pSteps.GetSavedToDisk
        = pSteps.GetSavedToDisk
    ∧ (pSteps.GetSavedToDisk = true →
        (WriteEditFileToMachine ext st pSong pSteps sErrorOut).trace
          = [StorageOp.DoesFileExist (WriteEditFileToMachine.sPath ext pSong pSteps) false,
             StorageOp.Open (WriteEditFileToMachine.sPath ext pSong pSteps) true true,
             StorageOp.PutLine (WriteEditFileToMachine.sPath ext pSong pSteps) sTag true,
             StorageOp.Flush (WriteEditFileToMachine.sPath ext pSong pSteps) true,
             StorageOp.Remove A (st.RemoveOk A)])
    ∧ (pSteps.GetSavedToDisk = false →
        (WriteEditFileToMachine ext st pSong pSteps sErrorOut).trace
          = [StorageOp.Open (WriteEditFileToMachine.sPath ext pSong pSteps) true true,
             StorageOp.PutLine (WriteEditFileToMachine.sPath ext pSong pSteps) sTag true,
             StorageOp.Flush (WriteEditFileToMachine.sPath ext pSong pSteps) true]) := by
  subst hrecorded
  have hne : pSteps.GetFilename ≠ WriteEditFileToMachine.sPath ext pSong pSteps :=
    fun h => hchanged h.symm
  cases hsaved : pSteps.GetSavedToDisk
  · unfold WriteEditFileToMachine
    simp [hsaved, hopen, hcontents, hwrite, hflush, Steps.SetFilename]
  · unfold WriteEditFileToMachine
    simp [hsaved, hne, hfree, hopen, hcontents, hwrite, hflush, Steps.SetFilename]

/-- C3 (amended), at the sample chart marked as saved to disk under an earlier name, on a
storage layer where no file exists and every operation succeeds. -/
theorem rename_removes_old_witness :
    savedSteps.GetFilename = "/Save/MachineProfile/Edits/Title - Old.edit"
    ∧ WriteEditFileToMachine.sPath refExt sampleSong savedSteps
        ≠ "/Save/MachineProfile/Edits/Title - Old.edit"
    ∧ (goodStorage fun _ => none).DoesFileExist
        (WriteEditFileToMachine.sPath refExt sampleSong savedSteps) = false
    ∧ (goodStorage fun _ => none).OpenOk
        (WriteEditFileToMachine.sPath refExt sampleSong savedSteps) = true
    ∧ GetEditFileContents refExt sampleSong savedSteps
        = some ("#SONG:Pack/Title;\r\n\r\n"
          ++ "//---------------dance-single - My Edit----------------\r\n#NOTEDATA:;\r\n"
          ++ "#CHARTNAME:;\r\n#STEPSTYPE:dance-single;\r\n#DESCRIPTION:My Edit;\r\n"
          ++ "#CHARTSTYLE:;\r\n#DIFFICULTY:Edit;\r\n#METER:9;\r\n#RADARVALUES:0.500;\r\n"
          ++ "#CREDIT:;\r\n#NOTES:\r\n0000\r\n,\r\n0000\r\n;")
    ∧ savedSteps.GetSavedToDisk = true
    ∧ (WriteEditFileToMachine refExt (goodStorage fun _ => none) sampleSong savedSteps
        "").trace
        = [StorageOp.DoesFileExist (WriteEditFileToMachine.sPath refExt sampleSong savedSteps)
             false,
           StorageOp.Open (WriteEditFileToMachine.sPath refExt sampleSong savedSteps) true true,
           StorageOp.PutLine (WriteEditFileToMachine.sPath refExt sampleSong savedSteps)
             ((GetEditFileContents refExt sampleSong savedSteps).getD "") true,
           StorageOp.Flush (WriteEditFileToMachine.sPath refExt sampleSong savedSteps) true,
           StorageOp.Remove "/Save/MachineProfile/Edits/Title - Old.edit"
             ((goodStorage fun _ => none).RemoveOk
               "/Save/MachineProfile/Edits/Title - Old.edit")] :=
  ⟨by decide, by decide, by decide, by decide, by decide, by decide,
    (rename_removes_old refExt (goodStorage fun _ => none) sampleSong savedSteps ""
      "/Save/MachineProfile/Edits/Title - Old.edit"
      ((GetEditFileContents refExt sampleSong savedSteps).getD "")
      (by decide) (by decide) (by decide) (by decide) (by decide) (by decide)
      (by decide)).2.2.2.1 (by decide)⟩

theorem WriteEditFileToMachine_same_path {F : Type} [DecidableEq F] (ext : Ext F)
    (st : Storage) (pSong : Song F) (pSteps : Steps F) (sErrorOut sTag : String)
    (hrecorded : pSteps.GetFilename = WriteEditFileToMachine.sPath ext pSong pSteps)
    (hopen : st.OpenOk (WriteEditFileToMachine.sPath ext pSong pSteps) = true)
    (hcontents : GetEditFileContents ext pSong pSteps = some sTag)
    (hwrite : st.WriteOk 0 sTag = true) (hflush : st.FlushOk = true) :
    (WriteEditFileToMachine ext st pSong pSteps sErrorOut).ret = some true
    ∧ (WriteEditFileToMachine ext st pSong pSteps sErrorOut).trace
        = [StorageOp.Open (WriteEditFileToMachine.sPath ext pSong pSteps) true true,
           StorageOp.PutLine (WriteEditFileToMachine.sPath ext pSong pSteps) sTag true,
           StorageOp.Flush (WriteEditFileToMachine.sPath ext pSong pSteps) true]
    ∧ (WriteEditFileToMachine ext st pSong pSteps sErrorOut).pSteps.GetFilename
        = WriteEditFileToMachine.sPath ext pSong pSteps := by
  unfold WriteEditFileToMachine
  simp [hrecorded, hopen, hcontents, hwrite, hflush, Steps.SetFilename]

/-- C4 (safe-replace idempotence).  First, for a chart whose recorded path equals the computed
destination, whatever files exist: when the open, the write of the edit contents and the flush
succeed, `WriteEditFileToMachine` returns true, its storage operations are the open, the
`PutLine` and the `Flush` of the destination and no `Remove`, and the recorded path is still the
destination.  Second, after any run that returned true, a second run for the same song and the
resulting chart, on any storage layer on which open, write and flush succeed, returns true,
performs no `Remove` and leaves the recorded path equal to the same destination. -/
theorem safe_replace_idempotent {F : Type} [DecidableEq F] (ext : Ext F) (pSong : Song F)
    (pSteps : Steps F) (st₁ st₂ : Storage) (sErrorOut₁ sErrorOut₂ sTag : String)
    (hcontents : GetEditFileContents ext pSong pSteps = some sTag) :
    (pSteps.GetFilename = WriteEditFileToMachine.sPath ext pSong pSteps →
      st₁.OpenOk (WriteEditFileToMachine.sPath ext pSong pSteps) = true →
      st₁.WriteOk 0 sTag = true → st₁.FlushOk = true →
      (WriteEditFileToMachine ext st₁ pSong pSteps sErrorOut₁).ret = some true
      ∧ (WriteEditFileToMachine ext st₁ pSong pSteps sErrorOut₁).trace
          = [StorageOp.Open (WriteEditFileToMachine.sPath ext pSong pSteps) true true,
             StorageOp.PutLine (WriteEditFileToMachine.sPath ext pSong pSteps) sTag true,
             StorageOp.Flush (WriteEditFileToMachine.sPath ext pSong pSteps) true]
      ∧ (∀ p ok, StorageOp.Remove p ok
          ∉ (WriteEditFileToMachine ext st₁ pSong pSteps sErrorOut₁).trace)
      ∧ (WriteEditFileToMachine ext st₁ pSong pSteps sErrorOut₁).pSteps.GetFilename
          = WriteEditFileToMachine.sPath ext pSong pSteps)
    ∧ ((WriteEditFileToMachine ext st₁ pSong pSteps sErrorOut₁).ret = some true →
      st₂.OpenOk (WriteEditFileToMachine.sPath ext pSong pSteps) = true →
      st₂.WriteOk 0 sTag = true → st₂.FlushOk = true →
      (WriteEditFileToMachine ext st₂ pSong
          (WriteEditFileToMachine ext st₁ pSong pSteps sErrorOut₁).pSteps sErrorOut₂).ret
        = some true
      ∧ (∀ p ok, StorageOp.Remove p ok
          ∉ (WriteEditFileToMachine ext st₂ pSong
              (WriteEditFileToMachine ext st₁ pSong pSteps sErrorOut₁).pSteps sErrorOut₂).trace)
      ∧ (WriteEditFileToMachine ext st₂ pSong
          (WriteEditFileToMachine ext st₁ pSong pSteps sErrorOut₁).pSteps
            sErrorOut₂).pSteps.GetFilename
        = WriteEditFileToMachine.sPath ext pSong pSteps) := by
  constructor
  · intro hrecorded hopen hwrite hflush
    obtain ⟨hret, htrace, hname⟩ := WriteEditFileToMachine_same_path ext st₁ pSong pSteps
      sErrorOut₁ sTag hrecorded hopen hcontents hwrite hflush
    refine ⟨hret, htrace, ?_, hname⟩
    intro p ok
    rw [htrace]
    simp
  · intro hret₁ hopen hwrite hflush
    have hsteps : (WriteEditFileToMachine ext st₁ pSong pSteps sErrorOut₁).pSteps
        = pSteps.SetFilename (WriteEditFileToMachine.sPath ext pSong pSteps) := by
      rcases WriteEditFileToMachine_run ext st₁ pSong pSteps sErrorOut₁ with
        ⟨hne, -, -⟩ | ⟨_, -, -, -, -, -, -, hs, -⟩
      · exact absurd hret₁ hne
      · exact hs
    rw [hsteps]
    obtain ⟨hret, htrace, hname⟩ := WriteEditFileToMachine_same_path ext st₂ pSong
      (pSteps.SetFilename (WriteEditFileToMachine.sPath ext pSong pSteps)) sErrorOut₂ sTag
      rfl hopen hcontents hwrite hflush
    refine ⟨hret, ?_, hname⟩
    intro p ok
    rw [htrace]
    simp [sPath_SetFilename]

/-- C4, at the sample chart: a first save of the unsaved chart, then a second save on a storage
layer that now holds a file at the destination. -/
theorem safe_replace_idempotent_witness :
    GetEditFileContents refExt sampleSong sampleSteps
        = some ((GetEditFileContents refExt sampleSong sampleSteps).getD "")
    ∧ (WriteEditFileToMachine refExt (goodStorage fun _ => none) sampleSong sampleSteps "").ret
        = some true
    ∧ (WriteEditFileToMachine refExt
        (goodStorage fun p =>
          if p = "/Save/MachineProfile/Edits/Title - My Edit.edit" then some "saved" else none)
        sampleSong
        (WriteEditFileToMachine refExt (goodStorage fun _ => none) sampleSong sampleSteps
          "").pSteps "").ret = some true :=
  ⟨by decide, by decide,
    ((safe_replace_idempotent refExt sampleSong sampleSteps (goodStorage fun _ => none)
      (goodStorage fun p =>
        if p = "/Save/MachineProfile/Edits/Title - My Edit.edit" then some "saved" else none)
      "" "" ((GetEditFileContents refExt sampleSong sampleSteps).getD "") (by decide)).2
      (by decide) (by decide) (by decide) (by decide)).1⟩

/-- C5 (frame of the filename update).  `WriteEditFileToMachine` sets the chart's recorded
filename to the computed destination when it returns true, the resulting chart being the given
one after `SetFilename( sPath )`; when it does not return true (collision, open failure, write or
flush failure, or a failed assertion) the chart is left as it was, recorded filename included;
and in every case the resulting chart differs from the given one in no attribute other than the
recorded filename.  The song is passed as `const Song *`: the call yields no changed song. -/
theorem filename_frame {F : Type} [DecidableEq F] (ext : Ext F) (st : Storage)
    (pSong : Song F) (pSteps : Steps F) (sErrorOut : String) :
    ((WriteEditFileToMachine ext st pSong pSteps sErrorOut).ret = some true →
      (WriteEditFileToMachine ext st pSong pSteps sErrorOut).pSteps
          = pSteps.SetFilename (WriteEditFileToMachine.sPath ext pSong pSteps)
      ∧ (WriteEditFileToMachine ext st pSong pSteps sErrorOut).pSteps.GetFilename
          = WriteEditFileToMachine.sPath ext pSong pSteps)
    ∧ ((WriteEditFileToMachine ext st pSong pSteps sErrorOut).ret ≠ some true →
      (WriteEditFileToMachine ext st pSong pSteps sErrorOut).pSteps = pSteps)
    ∧ { (WriteEditFileToMachine ext st pSong pSteps sErrorOut).pSteps with
          GetFilename := pSteps.GetFilename } = pSteps := by
  rcases WriteEditFileToMachine_run ext st pSong pSteps sErrorOut with
    ⟨hne, hs, -⟩ | ⟨_, -, -, -, -, hret, -, hs, -⟩
  · exact ⟨fun h => absurd h hne, fun _ => hs, by rw [hs]⟩
  · refine ⟨fun _ => ⟨hs, by rw [hs]; rfl⟩, fun h => absurd hret h, ?_⟩
    rw [hs]
    rfl

/-- C5, at a first save of the sample chart (returns true) and at a save that cannot open the
destination (returns false). -/
theorem filename_frame_witness :
    (WriteEditFileToMachine refExt (goodStorage fun _ => none) sampleSong sampleSteps
        "").pSteps.GetFilename = "/Save/MachineProfile/Edits/Title - My Edit.edit"
    ∧ (WriteEditFileToMachine refExt
        { goodStorage (fun _ => none) with OpenOk := fun _ => false } sampleSong savedSteps
        "").pSteps = savedSteps :=
  ⟨((filename_frame refExt (goodStorage fun _ => none) sampleSong sampleSteps "").1
      (by decide)).2,
    (filename_frame refExt { goodStorage (fun _ => none) with OpenOk := fun _ => false }
      sampleSong savedSteps "").2.1 (by decide)⟩

/-! ## The assertions of `GetTimingTags` -/

/-- C11, as stated, fails: with timing data that is already tidy, a collection whose time
signature, tick count or combo category is empty stops `GetTimingTags` on the assertion; no
empty tag is emitted. -/
theorem required_category_empty_example :
    GetTimingTags refExt [] { sampleTiming with SEGMENT_TIME_SIG := [] } false = none
    ∧ GetTimingTags refExt [] { sampleTiming with SEGMENT_TICKCOUNT := [] } false = none
    ∧ GetTimingTags refExt [] { sampleTiming with SEGMENT_COMBO := [] } false = none
    ∧ GetTimingTags refExt [] { sampleTiming with SEGMENT_COMBO := [] } true = none := by
  decide

/-- C11 (amended).  `GetTimingTags` asserts that the time signature, tick count and combo
categories of the tidied collection are non-empty: it is stopped by an assertion exactly when
one of the three has zero segments, and otherwise returns the given lines followed by the timing
block. -/
theorem required_categories_asserted {F : Type} (ext : Ext F) (lines : List String)
    (timing : TimingData F) (bIsSong : Bool) :
    (GetTimingTags ext lines timing bIsSong = none
      ↔ (ext.TidyUpData timing).SEGMENT_TIME_SIG = []
        ∨ (ext.TidyUpData timing).SEGMENT_TICKCOUNT = []
        ∨ (ext.TidyUpData timing).SEGMENT_COMBO = [])
    ∧ (GetTimingTags ext lines timing bIsSong
        = some (lines ++ timingBlock ext (ext.TidyUpData timing) bIsSong)
      ↔ ¬ ((ext.TidyUpData timing).SEGMENT_TIME_SIG = []
        ∨ (ext.TidyUpData timing).SEGMENT_TICKCOUNT = []
        ∨ (ext.TidyUpData timing).SEGMENT_COMBO = [])) := by
  rw [GetTimingTags_eq]
  by_cases h : (ext.TidyUpData timing).SEGMENT_TIME_SIG = []
      ∨ (ext.TidyUpData timing).SEGMENT_TICKCOUNT = []
      ∨ (ext.TidyUpData timing).SEGMENT_COMBO = []
  · simp [h]
  · simp [h]

/-! ## The unit field of a speed entry -/

/-- C20, the code at units from 32768 on: `%hd` prints the `unsigned short` as a `short`.  A
speed segment with unit 40000 gets the third field `-25536`, unit 65535 gets `-1`; units below
32768 are printed as they are. -/
theorem speed_unit_printed_signed :
    (TimingTagWriter.Write_float_float_ushort refExt (TimingTagWriter.mk_ []) 0
        (Frac.make 1 1) (Frac.make 0 1) 40000).m_pvsLines = ["0.000=1.000=0.000=-25536"]
    ∧ (TimingTagWriter.Write_float_float_ushort refExt (TimingTagWriter.mk_ []) 0
        (Frac.make 1 1) (Frac.make 0 1) 65535).m_pvsLines = ["0.000=1.000=0.000=-1"]
    ∧ (TimingTagWriter.Write_float_float_ushort refExt (TimingTagWriter.mk_ []) 0
        (Frac.make 1 1) (Frac.make 0 1) 32767).m_pvsLines = ["0.000=1.000=0.000=32767"]
    ∧ GetTimingTags refExt []
        { sampleTiming with SEGMENT_SPEED := [⟨0, Frac.make 1 1, Frac.make 0 1, 40000⟩] } false
        = some ["#BPMS:0.000=120.000", ";", "#STOPS:;", "#DELAYS:;", "#WARPS:;",
            "#TIMESIGNATURES:0.000=4=4", ";", "#TICKCOUNTS:0.000=4", ";", "#COMBOS:0.000=1", ";",
            "#SPEEDS:0.000=1.000=0.000=-25536", ";", "#SCROLLS:;", "#FAKES:;", "#LABELS:;"]
    ∧ (∀ (F : Type) (ext : Ext F) (w : TimingTagWriter) (row : Int) (a b : F) (u : Nat),
        (w.Write_float_float_ushort ext row a b u).m_pvsLines
          = w.m_pvsLines ++ [w.m_sNext ++ (ext.fmt3 (ext.NoteRowToBeat row) ++ "="
              ++ (ext.fmt3 a ++ "=" ++ ext.fmt3 b ++ "=" ++ fmtHD u))])
    ∧ (∀ u : Nat, u < 32768 → fmtHD u = toString (Int.ofNat u))
    ∧ (∀ u : Nat, 32768 ≤ u → u ≤ 65535 → fmtHD u = toString (Int.ofNat u - 65536)) := by
  refine ⟨by decide, by decide, by decide, by decide, fun _ _ _ _ _ _ _ => rfl, ?_, ?_⟩
  · intro u hu
    have h : u % 65536 = u := Nat.mod_eq_of_lt (by omega)
    simp [fmtHD, h, hu]
  · intro u hlo hhi
    have h : u % 65536 = u := Nat.mod_eq_of_lt (by omega)
    have h2 : ¬ u < 32768 := by omega
    simp [fmtHD, h, h2]

/-! ## `JoinLineList` -/

theorem skipLeadingBlanks_eq_zero (n : Nat) : skipLeadingBlanks n = 0 := by
  cases n with
  | zero => rfl
  | succ n => simp [skipLeadingBlanks, skipLeadingBlanks.loop]

theorem JoinLineList_eq {F : Type} (ext : Ext F) (lines : List String) :
    JoinLineList ext lines = join "\r\n" (lines.map ext.TrimRight) := by
  simp [JoinLineList, skipLeadingBlanks_eq_zero]

theorem GetSSCNoteData_lines_head {F : Type} [DecidableEq F] (ext : Ext F) (song : Song F)
    (in_ : Steps F) (bSavingCache : Bool) (L : List String)
    (h : GetSSCNoteData.lines ext song in_ bSavingCache = some L) :
    ∃ tail, L = GetSSCNoteData.head ext in_ ++ tail := by
  unfold GetSSCNoteData.lines at h
  by_cases hne : TimingData.ne song.m_SongTiming in_.m_Timing = true
  · simp only [hne, if_true] at h
    rw [GetTimingTags_onto] at h
    cases hb : GetTimingTags ext [] in_.m_Timing false with
    | none => simp [hb] at h
    | some block =>
      simp only [hb, Option.map_some', Option.some.injEq] at h
      subst h
      by_cases ha : song.GetAttackString = in_.GetAttackString
      · exact ⟨_, by simp only [ha, ne_eq, not_true_eq_false, if_false, List.append_assoc]; rfl⟩
      · exact ⟨_, by simp only [ha, ne_eq, not_false_eq_true, if_true, List.append_assoc]; rfl⟩
  · simp only [hne, if_false, Bool.false_eq_true] at h
    simp only [Option.some.injEq] at h
    subst h
    by_cases ha : song.GetAttackString = in_.GetAttackString
    · exact ⟨_, by simp only [ha, ne_eq, not_true_eq_false, if_false, List.append_assoc]; rfl⟩
    · exact ⟨_, by simp only [ha, ne_eq, not_false_eq_true, if_true, List.append_assoc]; rfl⟩

/-- C13, the code: the loop of `JoinLineList` never advances, so no line is skipped and the
result is all the trimmed lines joined by `"\r\n"`; a list that starts with blank lines gives a
text that starts with `"\r\n"`; and every chart block returned by `GetSSCNoteData` starts with
`"\r\n"`, its first line being the empty line pushed first. -/
theorem leading_blank_lines_kept :
    (∀ (F : Type) (ext : Ext F) (lines : List String),
      JoinLineList ext lines = join "\r\n" (lines.map ext.TrimRight))
    ∧ (∀ n : Nat, skipLeadingBlanks n = 0)
    ∧ JoinLineList refExt ["", "", "a", "b"] = "\r\n\r\na\r\nb"
    ∧ (∀ (song : Song Frac) (in_ : Steps Frac) (bSavingCache : Bool) (sTag : String),
        GetSSCNoteData refExt song in_ bSavingCache = some sTag → ∃ t, sTag = "\r\n" ++ t)
    ∧ GetSSCNoteData refExt sampleSong sampleSteps false
        = some ("\r\n//---------------dance-single - My Edit----------------\r\n#NOTEDATA:;\r\n"
          ++ "#CHARTNAME:;\r\n#STEPSTYPE:dance-single;\r\n#DESCRIPTION:My Edit;\r\n"
          ++ "#CHARTSTYLE:;\r\n#DIFFICULTY:Edit;\r\n#METER:9;\r\n#RADARVALUES:0.500;\r\n"
          ++ "#CREDIT:;\r\n#NOTES:\r\n0000\r\n,\r\n0000\r\n;") := by
  refine ⟨fun _ ext lines => JoinLineList_eq ext lines, skipLeadingBlanks_eq_zero, by decide,
    ?_, by decide⟩
  intro song in_ bSavingCache sTag h
  unfold GetSSCNoteData at h
  cases hl : GetSSCNoteData.lines refExt song in_ bSavingCache with
  | none => simp [hl] at h
  | some L =>
    obtain ⟨tail, htail⟩ := GetSSCNoteData_lines_head refExt song in_ bSavingCache L hl
    simp only [hl, Option.map_some', Option.some.injEq] at h
    rw [← h, JoinLineList_eq, htail]
    refine ⟨join "\r\n" ((List.map refExt.TrimRight (GetSSCNoteData.head refExt in_ ++ tail)).drop 1), ?_⟩
    simp only [GetSSCNoteData.head, List.cons_append, List.map_cons, join, List.drop_one,
      List.tail_cons]
    have h0 : refExt.TrimRight "" = "" := by decide
    rw [h0]
    simp

/-! ## `WriteGlobalTags`: selectable, key sounds, background changes -/

theorem stringJoin_cons (a : String) (l : List String) :
    String.join (a :: l) = a ++ String.join l := by
  apply String.ext; simp [String.data_join]

theorem stringJoin_append (l₁ l₂ : List String) :
    String.join (l₁ ++ l₂) = String.join l₁ ++ String.join l₂ := by
  apply String.ext; simp [String.data_join]

theorem head_eq_dropLast {F : Type} (ext : Ext F) (out : Song F) :
    WriteGlobalTags.head ext out
      = (WriteGlobalTags.head ext out).dropLast ++ [FileOp.Write "#SELECTABLE:"] := by
  refine (List.dropLast_append_getLast? _ ?_).symm
  unfold WriteGlobalTags.head
  rw [List.getLast?_append]
  rfl

theorem mem_head_cases {F : Type} (ext : Ext F) (out : Song F) (op : FileOp)
    (h : op ∈ WriteGlobalTags.head ext out) :
    (∃ s, op = FileOp.PutLine s) ∨ op = FileOp.Write "#SELECTABLE:" := by
  unfold WriteGlobalTags.head at h
  by_cases hi : out.GetInstrumentTracksToVectorString.isEmpty = true
  · simp [hi] at h
    rcases h with h | h | h | h | h | h | h | h | h | h | h | h | h | h | h | h | h | h | h <;>
      simp [h]
  · simp [hi] at h
    rcases h with h | h | h | h | h | h | h | h | h | h | h | h | h | h | h | h | h | h | h | h <;>
      simp [h]

/-- C15 (selectability tag).  The writes of the song header up to the selectability tag do not
depend on the selectability value and contain no write of `YES`.  After them, `SHOW_ALWAYS`
writes `#SELECTABLE:`, `YES` and the line end `;` and the header goes on; `SHOW_NEVER` writes
`#SELECTABLE:`, `NO` and `;` and the header goes on; for any other value the encoder is stopped
by the assertion right after `#SELECTABLE:`, with nothing written after it, so no `YES`. -/
theorem selectable_tag {F : Type} [DecidableEq F] (ext : Ext F) (out : Song F) :
    ∃ pre post : List FileOp,
      (∀ op ∈ pre, op ≠ FileOp.Write "YES" ∧ op ≠ FileOp.Write "NO")
      ∧ ∀ sel : SelectionDisplay,
        WriteGlobalTags ext { out with m_SelectionDisplay := sel }
          = match sel with
            | .SHOW_ALWAYS =>
              ⟨pre ++ [FileOp.Write "#SELECTABLE:", FileOp.Write "YES", FileOp.PutLine ";"]
                ++ post, false⟩
            | .SHOW_NEVER =>
              ⟨pre ++ [FileOp.Write "#SELECTABLE:", FileOp.Write "NO", FileOp.PutLine ";"]
                ++ post, false⟩
            | .other _ => ⟨pre ++ [FileOp.Write "#SELECTABLE:"], true⟩ := by
  refine ⟨(WriteGlobalTags.head ext out).dropLast,
    WriteGlobalTags.displayBPM ext out ++ WriteGlobalTags.rest ext out, ?_, ?_⟩
  · intro op hop
    rcases mem_head_cases ext out op (List.mem_of_mem_dropLast hop) with ⟨s, hs⟩ | hs
    · simp [hs]
    · rw [hs]; constructor <;> decide
  · intro sel
    have hh : WriteGlobalTags.head ext { out with m_SelectionDisplay := sel }
        = WriteGlobalTags.head ext out := rfl
    have hd : WriteGlobalTags.displayBPM ext { out with m_SelectionDisplay := sel }
        = WriteGlobalTags.displayBPM ext out := rfl
    have hr : WriteGlobalTags.rest ext { out with m_SelectionDisplay := sel }
        = WriteGlobalTags.rest ext out := rfl
    unfold WriteGlobalTags
    rw [hh, hd, hr]
    cases sel with
    | SHOW_ALWAYS =>
      simp only []
      conv => lhs; rw [head_eq_dropLast]
      simp
    | SHOW_NEVER =>
      simp only []
      conv => lhs; rw [head_eq_dropLast]
      simp
    | other v =>
      simp only []
      conv => lhs; rw [head_eq_dropLast]

theorem keysoundLoop_text (size : Nat) (files : List String) (i : Nat)
    (h : i + files.length = size) :
    String.join ((WriteGlobalTags.keysoundLoop size i files).map FileOp.text)
      = join "," files := by
  induction files generalizing i with
  | nil => rfl
  | cons file rest ih =>
    cases rest with
    | nil =>
      have hi : i = size - 1 := by simp at h; omega
      simp [WriteGlobalTags.keysoundLoop, hi, FileOp.text, join, stringJoin_cons]
      apply String.ext; simp [String.data_join]
    | cons t r =>
      have hi : i ≠ size - 1 := by simp at h; omega
      have := ih (i + 1) (by simp at h ⊢; omega)
      simp only [WriteGlobalTags.keysoundLoop, hi, ne_eq, not_false_eq_true, if_true,
        List.map_cons, List.map_append, List.cons_append, List.nil_append, FileOp.text,
        stringJoin_cons, join] at this ⊢
      rw [this, String.append_assoc]

theorem keysoundLoop_writes (size : Nat) (files : List String) (i : Nat) :
    ∀ op ∈ WriteGlobalTags.keysoundLoop size i files, ∃ s, op = FileOp.Write s := by
  induction files generalizing i with
  | nil => simp [WriteGlobalTags.keysoundLoop]
  | cons file rest ih =>
    intro op hop
    simp only [WriteGlobalTags.keysoundLoop, List.mem_cons, List.mem_append] at hop
    rcases hop with h | h | h
    · exact ⟨file, h⟩
    · by_cases hi : i = size - 1
      · simp [hi] at h
      · simp [hi] at h; exact ⟨",", h⟩
    · exact ih (i + 1) op h

/-- C19 (keysound tag).  For a song whose selectability is one of the two accepted values, the
header is not stopped, and for every list of keysound filenames it consists of a first part, the
keysound tag and a last part, first and last part not depending on the list.  The keysound tag
is the write of `#KEYSOUNDS:`, writes without line end for the filenames and the commas, and the
line end `;`; the text of these writes together is `#KEYSOUNDS:`, the filenames joined by `,`,
and `;`.  For the empty list this is `#KEYSOUNDS:;`, for one filename `#KEYSOUNDS:<name>;`. -/
theorem keysound_tag {F : Type} [DecidableEq F] (ext : Ext F) (out : Song F)
    (hsel : out.m_SelectionDisplay = .SHOW_ALWAYS ∨ out.m_SelectionDisplay = .SHOW_NEVER) :
    (WriteGlobalTags ext out).aborted = false
    ∧ (∃ pre post : List FileOp, ∀ files : List String,
        WriteGlobalTags ext { out with m_vsKeysoundFile := files }
          = ⟨pre
              ++ ([FileOp.Write "#KEYSOUNDS:"]
                ++ WriteGlobalTags.keysoundLoop files.length 0 files ++ [FileOp.PutLine ";"])
              ++ post, false⟩)
    ∧ (∀ files : List String,
        (∀ op ∈ WriteGlobalTags.keysoundLoop files.length 0 files, ∃ s, op = FileOp.Write s)
        ∧ String.join (([FileOp.Write "#KEYSOUNDS:"]
              ++ WriteGlobalTags.keysoundLoop files.length 0 files
              ++ [FileOp.PutLine ";"]).map FileOp.text)
            = "#KEYSOUNDS:" ++ join "," files ++ ";")
    ∧ "#KEYSOUNDS:" ++ join "," [] ++ ";" = "#KEYSOUNDS:;"
    ∧ (∀ name : String, "#KEYSOUNDS:" ++ join "," [name] ++ ";" = "#KEYSOUNDS:" ++ name ++ ";")
    := by
  refine ⟨?_, ?_, ?_, by decide, fun _ => rfl⟩
  · unfold WriteGlobalTags
    rcases hsel with h | h <;> simp [h]
  · have hshape : ∃ mid last : List FileOp, ∀ files : List String,
        WriteGlobalTags.rest ext { out with m_vsKeysoundFile := files }
          = mid
            ++ ([FileOp.Write "#KEYSOUNDS:"]
                ++ WriteGlobalTags.keysoundLoop files.length 0 files ++ [FileOp.PutLine ";"])
            ++ last := by
      refine ⟨WriteTimingTags ext out.m_SongTiming true
          ++ (if ext.isPositive out.GetSpecifiedLastSecond then
                [FileOp.PutLine
                  ("#LASTSECONDHINT:" ++ ext.fmt3 out.GetSpecifiedLastSecond ++ ";")]
              else [])
          ++ ((List.range ext.NUM_BackgroundLayer).map
                (WriteGlobalTags.backgroundLayer out)).flatten
          ++ (if out.GetForegroundChanges.length ≠ 0 then
                [FileOp.Write "#FGCHANGES:"]
                ++ out.GetForegroundChanges.map
                    (fun bgc => FileOp.PutLine (bgc.ToString ++ ","))
                ++ [FileOp.PutLine ";"]
              else []),
        [FileOp.PutLine ("#ATTACKS:" ++ out.GetAttackString ++ ";")], fun files => ?_⟩
      simp only [WriteGlobalTags.rest, List.append_assoc, List.cons_append, List.nil_append]
      rfl
    obtain ⟨mid, last, hmid⟩ := hshape
    have key : ∀ files : List String,
        WriteGlobalTags ext { out with m_vsKeysoundFile := files }
          = match out.m_SelectionDisplay with
            | .SHOW_ALWAYS =>
              ⟨WriteGlobalTags.head ext out ++ FileOp.Write "YES" :: ([FileOp.PutLine ";"]
                ++ WriteGlobalTags.displayBPM ext out
                ++ WriteGlobalTags.rest ext { out with m_vsKeysoundFile := files }), false⟩
            | .SHOW_NEVER =>
              ⟨WriteGlobalTags.head ext out ++ FileOp.Write "NO" :: ([FileOp.PutLine ";"]
                ++ WriteGlobalTags.displayBPM ext out
                ++ WriteGlobalTags.rest ext { out with m_vsKeysoundFile := files }), false⟩
            | .other _ => ⟨WriteGlobalTags.head ext out, true⟩ := fun _ => rfl
    rcases hsel with h | h
    · refine ⟨WriteGlobalTags.head ext out ++ FileOp.Write "YES" :: ([FileOp.PutLine ";"]
        ++ WriteGlobalTags.displayBPM ext out) ++ mid, last, fun files => ?_⟩
      rw [key, hmid, h]
      simp only [List.append_assoc, List.cons_append, List.nil_append]
    · refine ⟨WriteGlobalTags.head ext out ++ FileOp.Write "NO" :: ([FileOp.PutLine ";"]
        ++ WriteGlobalTags.displayBPM ext out) ++ mid, last, fun files => ?_⟩
      rw [key, hmid, h]
      simp only [List.append_assoc, List.cons_append, List.nil_append]
  · intro files
    refine ⟨keysoundLoop_writes _ _ _, ?_⟩
    simp only [List.map_append, List.map_cons, List.map_nil, stringJoin_append, stringJoin_cons,
      FileOp.text, keysoundLoop_text files.length files 0 (by simp)]
    apply String.ext
    simp [String.data_join]

/-- C19, at the sample song, whose selectability is `SHOW_ALWAYS`. -/
theorem keysound_tag_witness :
    (sampleSong.m_SelectionDisplay = .SHOW_ALWAYS ∨ sampleSong.m_SelectionDisplay = .SHOW_NEVER)
    ∧ (WriteGlobalTags refExt sampleSong).aborted = false :=
  ⟨by decide, (keysound_tag refExt sampleSong (by decide)).1⟩

theorem range_eq_zero_cons (n : Nat) (h : 0 < n) :
    List.range n = 0 :: List.range' 1 (n - 1) := by
  obtain ⟨m, rfl⟩ : ∃ m, n = m + 1 := ⟨n - 1, by omega⟩
  rw [List.range_eq_range', List.range'_succ]
  simp

/-- C14 (background-change tags).  For a song whose selectability is one of the two accepted
values, with at least one background layer: the header is not stopped, and for every assignment
of change events to the layers it consists of a first part, the background tags and a last part,
first and last part not depending on the events.  The background tags are: for layer 0, always,
the write of `#BGCHANGES:`, one line `<event>,` per event, then the sentinel line (the entry
`99999=-nosongbg-=1.000=0=0=0` followed by a comment) exactly when layer 0 has an event, then the
line `;`; for each layer `b ≥ 1`, nothing when it has no event, and otherwise the write of
`#BGCHANGES<b+1>:`, one line `<event>,` per event and the line `;`, without a sentinel. -/
theorem background_change_tags {F : Type} [DecidableEq F] (ext : Ext F) (out : Song F)
    (hsel : out.m_SelectionDisplay = .SHOW_ALWAYS ∨ out.m_SelectionDisplay = .SHOW_NEVER)
    (hlayers : 0 < ext.NUM_BackgroundLayer) :
    (WriteGlobalTags ext out).aborted = false
    ∧ ∃ pre post : List FileOp, ∀ bg : Nat → List BackgroundChange,
        WriteGlobalTags ext { out with GetBackgroundChanges := bg }
          = ⟨pre
              ++ ([FileOp.Write "#BGCHANGES:"]
                  ++ (bg 0).map (fun e => FileOp.PutLine (e.ToString ++ ","))
                  ++ (if bg 0 = [] then []
                      else [FileOp.PutLine ("99999=-nosongbg-=1.000=0=0=0"
                        ++ " // don't automatically add -songbackground-")])
                  ++ [FileOp.PutLine ";"])
              ++ ((List.range' 1 (ext.NUM_BackgroundLayer - 1)).map (fun b =>
                    if bg b = [] then []
                    else [FileOp.Write ("#BGCHANGES" ++ toString (b + 1) ++ ":")]
                      ++ (bg b).map (fun e => FileOp.PutLine (e.ToString ++ ","))
                      ++ [FileOp.PutLine ";"])).flatten
              ++ post, false⟩ := by
  refine ⟨?_, ?_⟩
  · unfold WriteGlobalTags
    rcases hsel with h | h <;> simp [h]
  · have hzero : ∀ bg : Nat → List BackgroundChange,
        WriteGlobalTags.backgroundLayer { out with GetBackgroundChanges := bg } 0
          = [FileOp.Write "#BGCHANGES:"]
            ++ (bg 0).map (fun e => FileOp.PutLine (e.ToString ++ ","))
            ++ (if bg 0 = [] then []
                else [FileOp.PutLine ("99999=-nosongbg-=1.000=0=0=0"
                  ++ " // don't automatically add -songbackground-")])
            ++ [FileOp.PutLine ";"] := by
      intro bg
      by_cases h0 : bg 0 = [] <;> simp [WriteGlobalTags.backgroundLayer, h0]
    have hhigher : ∀ (bg : Nat → List BackgroundChange) (b : Nat), 1 ≤ b →
        WriteGlobalTags.backgroundLayer { out with GetBackgroundChanges := bg } b
          = if bg b = [] then []
            else [FileOp.Write ("#BGCHANGES" ++ toString (b + 1) ++ ":")]
              ++ (bg b).map (fun e => FileOp.PutLine (e.ToString ++ ","))
              ++ [FileOp.PutLine ";"] := by
      intro bg b hb
      have hb0 : b ≠ 0 := by omega
      by_cases h0 : bg b = []
      · simp [WriteGlobalTags.backgroundLayer, h0, hb0]
      · simp [WriteGlobalTags.backgroundLayer, h0, hb0]
        rfl
    have hlayersEq : ∀ bg : Nat → List BackgroundChange,
        ((List.range ext.NUM_BackgroundLayer).map
          (WriteGlobalTags.backgroundLayer { out with GetBackgroundChanges := bg })).flatten
          = ([FileOp.Write "#BGCHANGES:"]
              ++ (bg 0).map (fun e => FileOp.PutLine (e.ToString ++ ","))
              ++ (if bg 0 = [] then []
                  else [FileOp.PutLine ("99999=-nosongbg-=1.000=0=0=0"
                    ++ " // don't automatically add -songbackground-")])
              ++ [FileOp.PutLine ";"])
            ++ ((List.range' 1 (ext.NUM_BackgroundLayer - 1)).map (fun b =>
                  if bg b = [] then []
                  else [FileOp.Write ("#BGCHANGES" ++ toString (b + 1) ++ ":")]
                    ++ (bg b).map (fun e => FileOp.PutLine (e.ToString ++ ","))
                    ++ [FileOp.PutLine ";"])).flatten := by
      intro bg
      rw [range_eq_zero_cons _ hlayers, List.map_cons, List.flatten_cons, hzero]
      congr 2
      apply List.map_congr_left
      intro b hb
      exact hhigher bg b (by simp [List.mem_range'] at hb; omega)
    have key : ∀ bg : Nat → List BackgroundChange,
        WriteGlobalTags ext { out with GetBackgroundChanges := bg }
          = match out.m_SelectionDisplay with
            | .SHOW_ALWAYS =>
              ⟨WriteGlobalTags.head ext out ++ FileOp.Write "YES" :: ([FileOp.PutLine ";"]
                ++ WriteGlobalTags.displayBPM ext out
                ++ (WriteTimingTags ext out.m_SongTiming true
                  ++ (if ext.isPositive out.GetSpecifiedLastSecond then
                        [FileOp.PutLine
                          ("#LASTSECONDHINT:" ++ ext.fmt3 out.GetSpecifiedLastSecond ++ ";")]
                      else [])
                  ++ ((List.range ext.NUM_BackgroundLayer).map
                      (WriteGlobalTags.backgroundLayer
                        { out with GetBackgroundChanges := bg })).flatten
                  ++ (if out.GetForegroundChanges.length ≠ 0 then
                        [FileOp.Write "#FGCHANGES:"]
                        ++ out.GetForegroundChanges.map
                            (fun bgc => FileOp.PutLine (bgc.ToString ++ ","))
                        ++ [FileOp.PutLine ";"]
                      else [])
                  ++ [FileOp.Write "#KEYSOUNDS:"]
                  ++ WriteGlobalTags.keysoundLoop out.m_vsKeysoundFile.length 0
                      out.m_vsKeysoundFile
                  ++ [ FileOp.PutLine ";",
                       FileOp.PutLine ("#ATTACKS:" ++ out.GetAttackString ++ ";") ])), false⟩
            | .SHOW_NEVER =>
              ⟨WriteGlobalTags.head ext out ++ FileOp.Write "NO" :: ([FileOp.PutLine ";"]
                ++ WriteGlobalTags.displayBPM ext out
                ++ (WriteTimingTags ext out.m_SongTiming true
                  ++ (if ext.isPositive out.GetSpecifiedLastSecond then
                        [FileOp.PutLine
                          ("#LASTSECONDHINT:" ++ ext.fmt3 out.GetSpecifiedLastSecond ++ ";")]
                      else [])
                  ++ ((List.range ext.NUM_BackgroundLayer).map
                      (WriteGlobalTags.backgroundLayer
                        { out with GetBackgroundChanges := bg })).flatten
                  ++ (if out.GetForegroundChanges.length ≠ 0 then
                        [FileOp.Write "#FGCHANGES:"]
                        ++ out.GetForegroundChanges.map
                            (fun bgc => FileOp.PutLine (bgc.ToString ++ ","))
                        ++ [FileOp.PutLine ";"]
                      else [])
                  ++ [FileOp.Write "#KEYSOUNDS:"]
                  ++ WriteGlobalTags.keysoundLoop out.m_vsKeysoundFile.length 0
                      out.m_vsKeysoundFile
                  ++ [ FileOp.PutLine ";",
                       FileOp.PutLine ("#ATTACKS:" ++ out.GetAttackString ++ ";") ])), false⟩
            | .other _ => ⟨WriteGlobalTags.head ext out, true⟩ := fun _ => rfl
    rcases hsel with h | h
    · refine ⟨WriteGlobalTags.head ext out ++ FileOp.Write "YES" :: ([FileOp.PutLine ";"]
          ++ WriteGlobalTags.displayBPM ext out)
          ++ (WriteTimingTags ext out.m_SongTiming true
            ++ (if ext.isPositive out.GetSpecifiedLastSecond then
                  [FileOp.PutLine
                    ("#LASTSECONDHINT:" ++ ext.fmt3 out.GetSpecifiedLastSecond ++ ";")]
                else [])),
        (if out.GetForegroundChanges.length ≠ 0 then
              [FileOp.Write "#FGCHANGES:"]
              ++ out.GetForegroundChanges.map
                  (fun bgc => FileOp.PutLine (bgc.ToString ++ ","))
              ++ [FileOp.PutLine ";"]
            else [])
          ++ [FileOp.Write "#KEYSOUNDS:"]
          ++ WriteGlobalTags.keysoundLoop out.m_vsKeysoundFile.length 0 out.m_vsKeysoundFile
          ++ [ FileOp.PutLine ";",
               FileOp.PutLine ("#ATTACKS:" ++ out.GetAttackString ++ ";") ],
        fun bg => ?_⟩
      rw [key, hlayersEq, h]
      simp only [List.append_assoc, List.cons_append, List.nil_append]
    · refine ⟨WriteGlobalTags.head ext out ++ FileOp.Write "NO" :: ([FileOp.PutLine ";"]
          ++ WriteGlobalTags.displayBPM ext out)
          ++ (WriteTimingTags ext out.m_SongTiming true
            ++ (if ext.isPositive out.GetSpecifiedLastSecond then
                  [FileOp.PutLine
                    ("#LASTSECONDHINT:" ++ ext.fmt3 out.GetSpecifiedLastSecond ++ ";")]
                else [])),
        (if out.GetForegroundChanges.length ≠ 0 then
              [FileOp.Write "#FGCHANGES:"]
              ++ out.GetForegroundChanges.map
                  (fun bgc => FileOp.PutLine (bgc.ToString ++ ","))
              ++ [FileOp.PutLine ";"]
            else [])
          ++ [FileOp.Write "#KEYSOUNDS:"]
          ++ WriteGlobalTags.keysoundLoop out.m_vsKeysoundFile.length 0 out.m_vsKeysoundFile
          ++ [ FileOp.PutLine ";",
               FileOp.PutLine ("#ATTACKS:" ++ out.GetAttackString ++ ";") ],
        fun bg => ?_⟩
      rw [key, hlayersEq, h]
      simp only [List.append_assoc, List.cons_append, List.nil_append]

/-- C14, at the sample song (selectability `SHOW_ALWAYS`, two background layers). -/
theorem background_change_tags_witness :
    (sampleSong.m_SelectionDisplay = .SHOW_ALWAYS ∨ sampleSong.m_SelectionDisplay = .SHOW_NEVER)
    ∧ 0 < refExt.NUM_BackgroundLayer
    ∧ (WriteGlobalTags refExt sampleSong).aborted = false :=
  ⟨by decide, by decide, (background_change_tags refExt sampleSong (by decide) (by decide)).1⟩

/-! ## Tag order -/

theorem filter_tagLines (sTag : String) (texts : List String) :
    (tagLines sTag texts).filter (fun l => decide (l.data.head? = some '#'))
      = ["#" ++ sTag ++ ":" ++ texts.headD ";"] := by
  cases texts with
  | nil => simp [tagLines, String.data_append]
  | cons e es =>
    have hrest : (es.map (fun x => "," ++ x) ++ [";"]).filter
        (fun l => decide (l.data.head? = some '#')) = [] := by
      rw [List.filter_eq_nil_iff]
      intro l hl
      simp only [List.mem_append, List.mem_map, List.mem_singleton] at hl
      rcases hl with ⟨x, -, rfl⟩ | rfl
      · simp [String.data_append]
      · decide
    simp only [tagLines, List.filter_cons, List.headD_cons]
    rw [hrest]
    simp [String.data_append]

/-- C12 (fixed tag order and Fake suppression).  When the three required categories of the
tidied collection are non-empty, `GetTimingTags` returns the given lines followed by emitted
lines among which the lines that open a tag (those starting with `#`) are, in this order, one
per category of the fixed order, each starting with `#<TAGNAME>:`.  `WriteTimingTags` writes, for
every collection, one line `#<TAGNAME>:<entries>;` per category of the same order, and the song
header calls it for the song-level block.  The order is `BPMS`, `STOPS`, `DELAYS`, `WARPS`,
`TIMESIGNATURES`, `TICKCOUNTS`, `COMBOS`, `SPEEDS`, `SCROLLS`, `FAKES`, `LABELS` for the
chart-level block (eleven tags) and the same without `FAKES` for the song-level block (ten
tags). -/
theorem fixed_tag_order {F : Type} (ext : Ext F) (lines : List String) (timing : TimingData F)
    (bIsSong : Bool) (out : Song F)
    (hsig : (ext.TidyUpData timing).SEGMENT_TIME_SIG ≠ [])
    (htick : (ext.TidyUpData timing).SEGMENT_TICKCOUNT ≠ [])
    (hcombo : (ext.TidyUpData timing).SEGMENT_COMBO ≠ []) :
    (GetTimingTags ext lines timing bIsSong).isSome = true
    ∧ (∃ (first : TimingSegmentType → String) (emitted : List String),
        GetTimingTags ext lines timing bIsSong = some (lines ++ emitted)
        ∧ emitted.filter (fun l => decide (l.data.head? = some '#'))
            = (categoryOrder bIsSong).map (fun c => "#" ++ tagName c ++ ":" ++ first c))
    ∧ WriteTimingTags ext timing bIsSong
        = (categoryOrder bIsSong).map (fun c =>
            FileOp.PutLine
              ("#" ++ tagName c ++ ":" ++ join ",\r\n" (ext.ToVectorString timing c) ++ ";"))
    ∧ (∃ tail, WriteGlobalTags.rest ext out = WriteTimingTags ext out.m_SongTiming true ++ tail)
    ∧ (categoryOrder false).map tagName
        = ["BPMS", "STOPS", "DELAYS", "WARPS", "TIMESIGNATURES", "TICKCOUNTS", "COMBOS",
            "SPEEDS", "SCROLLS", "FAKES", "LABELS"]
    ∧ (categoryOrder true).map tagName
        = ["BPMS", "STOPS", "DELAYS", "WARPS", "TIMESIGNATURES", "TICKCOUNTS", "COMBOS",
            "SPEEDS", "SCROLLS", "LABELS"] := by
  have hsome : GetTimingTags ext lines timing bIsSong
      = some (lines ++ timingBlock ext (ext.TidyUpData timing) bIsSong) := by
    rw [GetTimingTags_eq, if_neg (by simp [hsig, htick, hcombo])]
  refine ⟨by rw [hsome]; rfl, ?_, ?_, ?_, by decide, by decide⟩
  · refine ⟨fun c => (segmentEntries ext (ext.TidyUpData timing) c).headD ";",
      timingBlock ext (ext.TidyUpData timing) bIsSong, hsome, ?_⟩
    cases bIsSong <;>
      simp only [timingBlock, categoryOrder, List.map, List.flatten, List.filter_append,
        filter_tagLines, List.append_nil, List.cons_append, List.nil_append, if_true, if_false,
        Bool.false_eq_true, List.filter_nil]
  · cases bIsSong <;> rfl
  · exact ⟨_, by simp only [WriteGlobalTags.rest, List.append_assoc]; rfl⟩

/-- C12, at the sample timing collection. -/
theorem fixed_tag_order_witness :
    (refExt.TidyUpData sampleTiming).SEGMENT_TIME_SIG ≠ []
    ∧ (refExt.TidyUpData sampleTiming).SEGMENT_TICKCOUNT ≠ []
    ∧ (refExt.TidyUpData sampleTiming).SEGMENT_COMBO ≠ []
    ∧ (GetTimingTags refExt [] sampleTiming false).isSome = true :=
  ⟨by decide, by decide, by decide,
    (fixed_tag_order refExt [] sampleTiming false sampleSong
      (by decide) (by decide) (by decide)).1⟩

/-! ## `NotesWriterSSC::Write` -/

/-- C17, the code: `NotesWriterSSC::Write` does not look at the results of its writes.  On a
storage layer where the open and the flush succeed and every write fails, saving the sample song
and chart returns true although the first line (and every other) was not written.  In general
the returned value does not depend on the outcomes of the writes; a failed open gives false with
no write performed, and a failed flush gives false. -/
theorem write_failure_not_reported :
    (Write refExt failingWrites "Songs/Pack/Title/Title.ssc" sampleSong [sampleSteps] false).ret
        = some true
    ∧ StorageOp.PutLine "Songs/Pack/Title/Title.ssc" "#VERSION:0.70;" false
        ∈ (Write refExt failingWrites "Songs/Pack/Title/Title.ssc" sampleSong [sampleSteps]
            false).trace
    ∧ (∀ (F : Type) (_ : DecidableEq F) (ext : Ext F) (st : Storage) (sPath : String)
        (out : Song F) (vpStepsToSave : List (Steps F)) (bSavingCache : Bool)
        (outcome : Nat → String → Bool),
        (Write ext { st with WriteOk := outcome } sPath out vpStepsToSave bSavingCache).ret
          = (Write ext st sPath out vpStepsToSave bSavingCache).ret)
    ∧ (∀ (F : Type) (_ : DecidableEq F) (ext : Ext F) (st : Storage) (sPath : String)
        (out : Song F) (vpStepsToSave : List (Steps F)) (bSavingCache : Bool),
        st.OpenOk sPath = false →
        Write ext st sPath out vpStepsToSave bSavingCache
          = ⟨some false, [StorageOp.Open sPath (!bSavingCache) false]⟩)
    ∧ (∀ (F : Type) (_ : DecidableEq F) (ext : Ext F) (st : Storage) (sPath : String)
        (out : Song F) (vpStepsToSave : List (Steps F)) (bSavingCache : Bool),
        st.FlushOk = false →
        (Write ext st sPath out vpStepsToSave bSavingCache).ret ≠ some true) := by
  refine ⟨by decide, by decide, ?_, ?_, ?_⟩
  · intro F _ ext st sPath out vpStepsToSave bSavingCache outcome
    unfold Write
    simp only []
    split_ifs <;> rfl
  · intro F _ ext st sPath out vpStepsToSave bSavingCache hopen
    unfold Write
    simp [hopen]
  · intro F _ ext st sPath out vpStepsToSave bSavingCache hflush
    unfold Write
    simp only [hflush]
    split_ifs <;> simp_all

/-! ## What the timing block determines -/

theorem append_until {α : Type} (d : α) (x : List α) :
    ∀ (y t₁ t₂ : List α), d ∉ x → d ∉ y →
      (t₁ = [] ∨ ∃ r, t₁ = d :: r) → (t₂ = [] ∨ ∃ r, t₂ = d :: r) →
      x ++ t₁ = y ++ t₂ → x = y ∧ t₁ = t₂ := by
  induction x with
  | nil =>
    intro y t₁ t₂ _ hy ht₁ _ h
    cases y with
    | nil => exact ⟨rfl, by simpa using h⟩
    | cons b y =>
      exfalso
      rcases ht₁ with rfl | ⟨r, rfl⟩
      · simp at h
      · simp only [List.nil_append, List.cons_append, List.cons.injEq] at h
        exact hy (by simp [h.1])
  | cons a x ih =>
    intro y t₁ t₂ hx hy _ ht₂ h
    cases y with
    | nil =>
      exfalso
      rcases ht₂ with rfl | ⟨r, rfl⟩
      · simp at h
      · simp only [List.nil_append, List.cons_append, List.cons.injEq] at h
        exact hx (by simp [h.1])
    | cons b y =>
      simp only [List.cons_append, List.cons.injEq] at h
      obtain ⟨hab, hrest⟩ := h
      have hx2 : d ∉ x := fun hm => hx (List.mem_cons_of_mem _ hm)
      have hy2 : d ∉ y := fun hm => hy (List.mem_cons_of_mem _ hm)
      obtain ⟨h1, h2⟩ := ih y t₁ t₂ hx2 hy2 ‹_› ht₂ hrest
      exact ⟨by rw [hab, h1], h2⟩

theorem commaTail_shape (es : List String) :
    (String.join (es.map (fun x => "," ++ x))).data = []
      ∨ ∃ r, (String.join (es.map (fun x => "," ++ x))).data = ',' :: r := by
  cases es with
  | nil => left; rfl
  | cons e es => right; exact ⟨_, by simp [String.data_join, String.data_append]; rfl⟩

theorem commaTail_inj (es₁ : List String) :
    ∀ es₂ : List String, (∀ e ∈ es₁, ',' ∉ e.data) → (∀ e ∈ es₂, ',' ∉ e.data) →
      (String.join (es₁.map (fun x => "," ++ x))).data
        = (String.join (es₂.map (fun x => "," ++ x))).data → es₁ = es₂ := by
  induction es₁ with
  | nil =>
    intro es₂ _ _ h
    cases es₂ with
    | nil => rfl
    | cons e es => simp [String.data_join, String.data_append] at h
  | cons x xs ih =>
    intro es₂ h₁ h₂ h
    cases es₂ with
    | nil => simp [String.data_join, String.data_append] at h
    | cons y ys =>
      have hx : (String.join ((x :: xs).map (fun x => "," ++ x))).data
          = ',' :: (x.data ++ (String.join (xs.map (fun x => "," ++ x))).data) := by
        simp [String.data_join, String.data_append]
      have hy : (String.join ((y :: ys).map (fun x => "," ++ x))).data
          = ',' :: (y.data ++ (String.join (ys.map (fun x => "," ++ x))).data) := by
        simp [String.data_join, String.data_append]
      rw [hx, hy] at h
      simp only [List.cons.injEq, true_and] at h
      obtain ⟨hxy, ht⟩ := append_until ',' x.data y.data _ _
        (h₁ x (List.mem_cons_self _ _)) (h₂ y (List.mem_cons_self _ _))
        (commaTail_shape xs) (commaTail_shape ys) h
      have := ih ys (fun e he => h₁ e (List.mem_cons_of_mem _ he))
        (fun e he => h₂ e (List.mem_cons_of_mem _ he)) ht
      rw [String.ext hxy, this]

theorem commaJoin_inj (es₁ es₂ : List String)
    (h₁ : ∀ e ∈ es₁, e.data ≠ [] ∧ ',' ∉ e.data) (h₂ : ∀ e ∈ es₂, e.data ≠ [] ∧ ',' ∉ e.data)
    (h : (join "," es₁).data = (join "," es₂).data) : es₁ = es₂ := by
  cases es₁ with
  | nil =>
    cases es₂ with
    | nil => rfl
    | cons y ys =>
      exfalso
      rw [join_cons_eq] at h
      simp only [join, String.data_append] at h
      have : y.data = [] := by
        have h' := h.symm
        simp only [List.append_eq_nil] at h'
        exact h'.1
      exact (h₂ y (List.mem_cons_self _ _)).1 this
  | cons x xs =>
    cases es₂ with
    | nil =>
      exfalso
      rw [join_cons_eq] at h
      simp only [join, String.data_append] at h
      have : x.data = [] := by
        simp only [List.append_eq_nil] at h
        exact h.1
      exact (h₁ x (List.mem_cons_self _ _)).1 this
    | cons y ys =>
      rw [join_cons_eq, join_cons_eq] at h
      simp only [String.data_append] at h
      obtain ⟨hxy, ht⟩ := append_until ',' x.data y.data _ _
        (h₁ x (List.mem_cons_self _ _)).2 (h₂ y (List.mem_cons_self _ _)).2
        (commaTail_shape xs) (commaTail_shape ys) h
      have := commaTail_inj xs ys (fun e he => (h₁ e (List.mem_cons_of_mem _ he)).2)
        (fun e he => (h₂ e (List.mem_cons_of_mem _ he)).2) ht
      rw [String.ext hxy, this]

theorem commaJoin_free (d : Char) (hd : d ≠ ',') (es : List String)
    (h : ∀ e ∈ es, d ∉ e.data) : d ∉ (join "," es).data := by
  cases es with
  | nil => simp [join]
  | cons x xs =>
    rw [join_cons_eq]
    simp only [String.data_append, String.data_join, List.mem_append, List.map_map,
      List.mem_flatten, List.mem_map, Function.comp, not_or]
    refine ⟨h x (List.mem_cons_self _ _), ?_⟩
    rintro ⟨l, ⟨e, he, rfl⟩, hl⟩
    simp only [String.data_append, List.mem_append] at hl
    rcases hl with hl | hl
    · simp at hl; exact hd hl
    · exact h e (List.mem_cons_of_mem _ he) hl

/-- Equal concatenated tags have equal entries when no entry is empty or holds a separator. -/
theorem tagText_inj {C : Type} (name : C → String) (cs : List C) (f g : C → List String)
    (hf : ∀ c ∈ cs, ∀ e ∈ f c, e.data ≠ [] ∧ ',' ∉ e.data ∧ ';' ∉ e.data)
    (hg : ∀ c ∈ cs, ∀ e ∈ g c, e.data ≠ [] ∧ ',' ∉ e.data ∧ ';' ∉ e.data)
    (h : String.join ((cs.map (fun c => tagLines (name c) (f c))).flatten)
      = String.join ((cs.map (fun c => tagLines (name c) (g c))).flatten)) :
    ∀ c ∈ cs, f c = g c := by
  induction cs with
  | nil => intro c hc; cases hc
  | cons c cs ih =>
    have hdata := congrArg String.data h
    simp only [List.map_cons, List.flatten_cons, stringJoin_append, stringJoin_tagLines,
      String.data_append, List.append_assoc] at hdata
    have h2 := List.append_cancel_left (List.append_cancel_left (List.append_cancel_left hdata))
    simp only [List.singleton_append] at h2
    obtain ⟨hbody, hrest⟩ := append_until ';' _ _ _ _
      (commaJoin_free ';' (by decide) (f c)
        (fun e he => (hf c (List.mem_cons_self _ _) e he).2.2))
      (commaJoin_free ';' (by decide) (g c)
        (fun e he => (hg c (List.mem_cons_self _ _) e he).2.2))
      (Or.inr ⟨_, rfl⟩) (Or.inr ⟨_, rfl⟩) h2
    have hc : f c = g c :=
      commaJoin_inj (f c) (g c)
        (fun e he => ⟨(hf c (List.mem_cons_self _ _) e he).1,
          (hf c (List.mem_cons_self _ _) e he).2.1⟩)
        (fun e he => ⟨(hg c (List.mem_cons_self _ _) e he).1,
          (hg c (List.mem_cons_self _ _) e he).2.1⟩) hbody
    have hcs := ih (fun c' hc' => hf c' (List.mem_cons_of_mem _ hc'))
      (fun c' hc' => hg c' (List.mem_cons_of_mem _ hc'))
      (String.ext (List.cons.inj hrest).2)
    intro c' hc'
    rcases List.mem_cons.mp hc' with rfl | hc'
    · exact hc
    · exact hcs c' hc'

theorem commaLines_inj (es₁ : List String) :
    ∀ (es₂ r₁ r₂ : List String),
      es₁.map (fun x => "," ++ x) ++ ";" :: r₁ = es₂.map (fun x => "," ++ x) ++ ";" :: r₂ →
      es₁ = es₂ ∧ r₁ = r₂ := by
  induction es₁ with
  | nil =>
    intro es₂ r₁ r₂ h
    cases es₂ with
    | nil => exact ⟨rfl, by simpa using h⟩
    | cons y ys =>
      exfalso
      simp only [List.map_nil, List.nil_append, List.map_cons, List.cons_append,
        List.cons.injEq] at h
      have := congrArg String.data h.1
      simp [String.data_append] at this
  | cons x xs ih =>
    intro es₂ r₁ r₂ h
    cases es₂ with
    | nil =>
      exfalso
      simp only [List.map_nil, List.nil_append, List.map_cons, List.cons_append,
        List.cons.injEq] at h
      have := congrArg String.data h.1
      simp [String.data_append] at this
    | cons y ys =>
      simp only [List.map_cons, List.cons_append, List.cons.injEq] at h
      obtain ⟨hxy, hrest⟩ := h
      have hd := congrArg String.data hxy
      simp only [String.data_append] at hd
      have hxy2 : x = y := String.ext (List.append_cancel_left hd)
      obtain ⟨h1, h2⟩ := ih ys r₁ r₂ hrest
      exact ⟨by rw [hxy2, h1], h2⟩

/-- Equal tag lines have equal entries when no entry is the closing `;`. -/
theorem tagLines_inj {C : Type} (name : C → String) (cs : List C) (f g : C → List String)
    (hf : ∀ c ∈ cs, ∀ e ∈ f c, e ≠ ";") (hg : ∀ c ∈ cs, ∀ e ∈ g c, e ≠ ";")
    (h : (cs.map (fun c => tagLines (name c) (f c))).flatten
      = (cs.map (fun c => tagLines (name c) (g c))).flatten) :
    ∀ c ∈ cs, f c = g c := by
  induction cs with
  | nil => intro c hc; cases hc
  | cons c cs ih =>
    simp only [List.map_cons, List.flatten_cons] at h
    have key : f c = g c ∧ (cs.map (fun c => tagLines (name c) (f c))).flatten
        = (cs.map (fun c => tagLines (name c) (g c))).flatten := by
      have hfc := hf c (List.mem_cons_self _ _)
      have hgc := hg c (List.mem_cons_self _ _)
      generalize (cs.map (fun c => tagLines (name c) (f c))).flatten = r₁ at h
      generalize (cs.map (fun c => tagLines (name c) (g c))).flatten = r₂ at h
      revert hfc hgc h
      generalize f c = es₁
      generalize g c = es₂
      intro hfc hgc h
      cases es₁ with
      | nil =>
        cases es₂ with
        | nil => exact ⟨rfl, by simpa [tagLines] using h⟩
        | cons y ys =>
          exfalso
          simp only [tagLines, List.cons_append, List.cons.injEq] at h
          have hd := congrArg String.data h.1
          simp only [String.data_append] at hd
          exact hgc y (List.mem_cons_self _ _) (String.ext (List.append_cancel_left hd)).symm
      | cons x xs =>
        cases es₂ with
        | nil =>
          exfalso
          simp only [tagLines, List.cons_append, List.cons.injEq] at h
          have hd := congrArg String.data h.1
          simp only [String.data_append] at hd
          exact hfc x (List.mem_cons_self _ _) (String.ext (List.append_cancel_left hd))
        | cons y ys =>
          simp only [tagLines, List.cons_append, List.cons.injEq, List.append_assoc,
            List.singleton_append] at h
          obtain ⟨hxy, hrest⟩ := h
          have hd := congrArg String.data hxy
          simp only [String.data_append] at hd
          obtain ⟨h1, h2⟩ := commaLines_inj xs ys _ _ hrest
          exact ⟨by rw [String.ext (List.append_cancel_left hd), h1], h2⟩
    have hcs := ih (fun c' hc' => hf c' (List.mem_cons_of_mem _ hc'))
      (fun c' hc' => hg c' (List.mem_cons_of_mem _ hc')) key.2
    intro c' hc'
    rcases List.mem_cons.mp hc' with rfl | hc'
    · exact key.1
    · exact hcs c' hc'

theorem segmentEntries_has_eq {F : Type} (ext : Ext F) (td : TimingData F)
    (c : TimingSegmentType) : ∀ e ∈ segmentEntries ext td c, '=' ∈ e.data := by
  intro e he
  cases c <;> simp only [segmentEntries, List.mem_map] at he <;> obtain ⟨s, _, rfl⟩ := he <;>
    simp [entryText, String.data_append]

/-- C18, as stated, fails: two labels `a` (row 0) and `b` (row 48) and the single label
`a,1.000=b` (row 0) are different label sequences of collections with non-empty required
categories, and the text emitted for them is the same, so no decoder can give back both; with
a line break in the label the same holds for the lines joined by `JoinLineList`. -/
theorem label_text_ambiguous :
    twoLabels.SEGMENT_LABEL ≠ commaLabel.SEGMENT_LABEL
    ∧ twoLabels.SEGMENT_LABEL.length = 2 ∧ commaLabel.SEGMENT_LABEL.length = 1
    ∧ segmentEntries refExt twoLabels .SEGMENT_LABEL
        ≠ segmentEntries refExt commaLabel .SEGMENT_LABEL
    ∧ (GetTimingTags refExt [] twoLabels false).map String.join
        = some ("#BPMS:0.000=120.000;#STOPS:;#DELAYS:;#WARPS:;#TIMESIGNATURES:0.000=4=4;"
            ++ "#TICKCOUNTS:0.000=4;#COMBOS:0.000=1;#SPEEDS:;#SCROLLS:;#FAKES:;"
            ++ "#LABELS:0.000=a,1.000=b;")
    ∧ (GetTimingTags refExt [] commaLabel false).map String.join
        = (GetTimingTags refExt [] twoLabels false).map String.join
    ∧ (GetTimingTags refExt [] commaLabel true).map String.join
        = (GetTimingTags refExt [] twoLabels true).map String.join
    ∧ (GetTimingTags refExt [] lineBreakLabel false).map (JoinLineList refExt)
        = (GetTimingTags refExt [] twoLabels false).map (JoinLineList refExt)
    ∧ twoLabels.SEGMENT_LABEL ≠ lineBreakLabel.SEGMENT_LABEL := by
  decide

/-- C18 (amended).  For two timing collections with non-empty required categories,
`GetTimingTags` adds to the given lines the lines `l₁` and `l₂`; the lines are equal exactly
when, for every category of the block, the tidied collections have the same ordered sequence of
printed entries `<beat, 3 decimals>=<payload as formatted>`; and when no printed entry holds a
`,` or a `;`, the same is true of the concatenated text of the lines. -/
theorem timing_entries_determined {F : Type} (ext : Ext F) (lines : List String)
    (t₁ t₂ : TimingData F) (bIsSong : Bool)
    (h₁ : (ext.TidyUpData t₁).SEGMENT_TIME_SIG ≠ [] ∧ (ext.TidyUpData t₁).SEGMENT_TICKCOUNT ≠ []
      ∧ (ext.TidyUpData t₁).SEGMENT_COMBO ≠ [])
    (h₂ : (ext.TidyUpData t₂).SEGMENT_TIME_SIG ≠ [] ∧ (ext.TidyUpData t₂).SEGMENT_TICKCOUNT ≠ []
      ∧ (ext.TidyUpData t₂).SEGMENT_COMBO ≠ []) :
    ∃ l₁ l₂ : List String,
      GetTimingTags ext lines t₁ bIsSong = some (lines ++ l₁)
      ∧ GetTimingTags ext lines t₂ bIsSong = some (lines ++ l₂)
      ∧ (l₁ = l₂ ↔ ∀ c ∈ categoryOrder bIsSong,
          segmentEntries ext (ext.TidyUpData t₁) c = segmentEntries ext (ext.TidyUpData t₂) c)
      ∧ ((∀ c ∈ categoryOrder bIsSong, ∀ e ∈ segmentEntries ext (ext.TidyUpData t₁) c,
            ',' ∉ e.data ∧ ';' ∉ e.data) →
          (∀ c ∈ categoryOrder bIsSong, ∀ e ∈ segmentEntries ext (ext.TidyUpData t₂) c,
            ',' ∉ e.data ∧ ';' ∉ e.data) →
          (String.join l₁ = String.join l₂ ↔ ∀ c ∈ categoryOrder bIsSong,
            segmentEntries ext (ext.TidyUpData t₁) c
              = segmentEntries ext (ext.TidyUpData t₂) c)) := by
  have hback : (∀ c ∈ categoryOrder bIsSong,
      segmentEntries ext (ext.TidyUpData t₁) c = segmentEntries ext (ext.TidyUpData t₂) c) →
      timingBlock ext (ext.TidyUpData t₁) bIsSong
        = timingBlock ext (ext.TidyUpData t₂) bIsSong := by
    intro h
    unfold timingBlock
    congr 1
    apply List.map_congr_left
    intro c hc
    rw [h c hc]
  have hne : ∀ (td : TimingData F) (c : TimingSegmentType), ∀ e ∈ segmentEntries ext td c,
      e.data ≠ [] ∧ e ≠ ";" := by
    intro td c e he
    have hmem := segmentEntries_has_eq ext td c e he
    refine ⟨fun h0 => ?_, fun h0 => ?_⟩
    · rw [h0] at hmem; cases hmem
    · rw [h0] at hmem; revert hmem; decide
  refine ⟨timingBlock ext (ext.TidyUpData t₁) bIsSong,
    timingBlock ext (ext.TidyUpData t₂) bIsSong, ?_, ?_, ⟨?_, hback⟩, ?_⟩
  · rw [GetTimingTags_eq]; simp [h₁.1, h₁.2.1, h₁.2.2]
  · rw [GetTimingTags_eq]; simp [h₂.1, h₂.2.1, h₂.2.2]
  · intro h
    exact tagLines_inj tagName (categoryOrder bIsSong) _ _
      (fun c _ e he => (hne _ c e he).2) (fun c _ e he => (hne _ c e he).2) h
  · intro hs₁ hs₂
    refine ⟨fun h => ?_, fun h => by rw [hback h]⟩
    exact tagText_inj tagName (categoryOrder bIsSong) _ _
      (fun c hc e he => ⟨(hne _ c e he).1, hs₁ c hc e he⟩)
      (fun c hc e he => ⟨(hne _ c e he).1, hs₂ c hc e he⟩) h

theorem timing_entries_determined_witness :
    (twoLabels.SEGMENT_TIME_SIG ≠ [] ∧ twoLabels.SEGMENT_TICKCOUNT ≠ []
      ∧ twoLabels.SEGMENT_COMBO ≠ [])
    ∧ (∀ c ∈ categoryOrder false, ∀ e ∈ segmentEntries refExt twoLabels c,
        ',' ∉ e.data ∧ ';' ∉ e.data)
    ∧ (∀ c ∈ categoryOrder false, ∀ e ∈ segmentEntries refExt sampleTiming c,
        ',' ∉ e.data ∧ ';' ∉ e.data)
    ∧ ∃ l₁ l₂ : List String,
      GetTimingTags refExt [] twoLabels false = some ([] ++ l₁)
      ∧ GetTimingTags refExt [] sampleTiming false = some ([] ++ l₂)
      ∧ (l₁ = l₂ ↔ ∀ c ∈ categoryOrder false,
          segmentEntries refExt (refExt.TidyUpData twoLabels) c
            = segmentEntries refExt (refExt.TidyUpData sampleTiming) c)
      ∧ ((∀ c ∈ categoryOrder false, ∀ e ∈ segmentEntries refExt (refExt.TidyUpData twoLabels) c,
            ',' ∉ e.data ∧ ';' ∉ e.data) →
          (∀ c ∈ categoryOrder false,
            ∀ e ∈ segmentEntries refExt (refExt.TidyUpData sampleTiming) c,
            ',' ∉ e.data ∧ ';' ∉ e.data) →
          (String.join l₁ = String.join l₂ ↔ ∀ c ∈ categoryOrder false,
            segmentEntries refExt (refExt.TidyUpData twoLabels) c
              = segmentEntries refExt (refExt.TidyUpData sampleTiming) c)) :=
  ⟨by decide, by decide, by decide,
    timing_entries_determined refExt [] twoLabels sampleTiming false (by decide) (by decide)⟩

/-! ## The combo payload -/

theorem digitChar_value (m : Nat) (h : m < 10) : (Nat.digitChar m).toNat - 48 = m := by
  interval_cases m <;> rfl

theorem digitChar_isDigit (m : Nat) (h : m < 10) : (Nat.digitChar m).isDigit = true := by
  interval_cases m <;> rfl

theorem toDigitsCore_value (fuel : Nat) :
    ∀ (n : Nat) (ds : List Char), n < fuel →
      (Nat.toDigitsCore 10 fuel n ds).foldl (fun acc c => 10 * acc + (c.toNat - 48)) 0
        = ds.foldl (fun acc c => 10 * acc + (c.toNat - 48)) n := by
  induction fuel with
  | zero => intro n ds h; omega
  | succ fuel ih =>
    intro n ds h
    unfold Nat.toDigitsCore
    by_cases h0 : n / 10 = 0
    · simp only [h0, if_true, List.foldl_cons, Nat.mul_zero, Nat.zero_add]
      rw [digitChar_value (n % 10) (Nat.mod_lt _ (by decide))]
      congr 1
      omega
    · simp only [h0, if_false]
      rw [ih (n / 10) _ (by omega)]
      simp only [List.foldl_cons]
      rw [digitChar_value (n % 10) (Nat.mod_lt _ (by decide))]
      congr 1
      omega

theorem toDigitsCore_isDigit (fuel : Nat) :
    ∀ (n : Nat) (ds : List Char), (∀ c ∈ ds, c.isDigit = true) →
      ∀ c ∈ Nat.toDigitsCore 10 fuel n ds, c.isDigit = true := by
  induction fuel with
  | zero => intro n ds h; simpa [Nat.toDigitsCore] using h
  | succ fuel ih =>
    intro n ds h
    have hcons : ∀ c ∈ Nat.digitChar (n % 10) :: ds, c.isDigit = true := by
      intro c hc
      rcases List.mem_cons.mp hc with rfl | hc
      · exact digitChar_isDigit _ (Nat.mod_lt _ (by decide))
      · exact h c hc
    unfold Nat.toDigitsCore
    by_cases h0 : n / 10 = 0
    · simpa only [h0, if_true] using hcons
    · simpa only [h0, if_false] using ih (n / 10) _ hcons

theorem natRepr_value (n : Nat) :
    (Nat.repr n).data.foldl (fun acc c => 10 * acc + (c.toNat - 48)) 0 = n := by
  have := toDigitsCore_value (n + 1) n [] (Nat.lt_succ_self n)
  simpa [Nat.repr, Nat.toDigits, List.asString] using this

theorem natRepr_isDigit (n : Nat) : ∀ c ∈ (Nat.repr n).data, c.isDigit = true := by
  have := toDigitsCore_isDigit (n + 1) n [] (by simp)
  simpa [Nat.repr, Nat.toDigits, List.asString] using this

theorem natRepr_inj (a b : Nat) (h : Nat.repr a = Nat.repr b) : a = b := by
  rw [← natRepr_value a, ← natRepr_value b, h]

theorem fmtD_ofNat (m : Nat) : (fmtD (Int.ofNat m)).data = (Nat.repr m).data := rfl

theorem fmtD_negSucc (m : Nat) :
    (fmtD (Int.negSucc m)).data = '-' :: (Nat.repr (m + 1)).data := rfl

/-- The text of `%d` holds no `=`. -/
theorem fmtD_no_eq (n : Int) : '=' ∉ (fmtD n).data := by
  intro h
  cases n with
  | ofNat m =>
    rw [fmtD_ofNat] at h
    have := natRepr_isDigit m _ h
    revert this; decide
  | negSucc m =>
    rw [fmtD_negSucc] at h
    rcases List.mem_cons.mp h with h | h
    · revert h; decide
    · have := natRepr_isDigit (m + 1) _ h
      revert this; decide

/-- The text of `%d` determines the integer. -/
theorem fmtD_inj (a b : Int) (h : fmtD a = fmtD b) : a = b := by
  have hd := congrArg String.data h
  cases a with
  | ofNat m =>
    cases b with
    | ofNat k =>
      rw [fmtD_ofNat, fmtD_ofNat] at hd
      rw [natRepr_inj m k (String.ext hd)]
    | negSucc k =>
      exfalso
      rw [fmtD_ofNat, fmtD_negSucc] at hd
      have := natRepr_isDigit m '-' (by rw [hd]; exact List.mem_cons_self _ _)
      revert this; decide
  | negSucc m =>
    cases b with
    | ofNat k =>
      exfalso
      rw [fmtD_ofNat, fmtD_negSucc] at hd
      have := natRepr_isDigit k '-' (by rw [← hd]; exact List.mem_cons_self _ _)
      revert this; decide
    | negSucc k =>
      rw [fmtD_negSucc, fmtD_negSucc] at hd
      have := natRepr_inj (m + 1) (k + 1) (String.ext (List.cons.inj hd).2)
      have hmk : m = k := by omega
      rw [hmk]

theorem fmtD_pair_inj (a b a' b' : Int)
    (h : fmtD a ++ "=" ++ fmtD b = fmtD a' ++ "=" ++ fmtD b') : a = a' ∧ b = b' := by
  have hd := congrArg String.data h
  simp only [String.data_append, List.append_assoc] at hd
  obtain ⟨h1, h2⟩ := append_until '=' _ _ _ _ (fmtD_no_eq a) (fmtD_no_eq a')
    (Or.inr ⟨_, rfl⟩) (Or.inr ⟨_, rfl⟩) hd
  exact ⟨fmtD_inj _ _ (String.ext h1), fmtD_inj _ _ (String.ext (List.cons.inj h2).2)⟩

theorem fmtD_ne_pair (c a b : Int) : fmtD c ≠ fmtD a ++ "=" ++ fmtD b := by
  intro h
  apply fmtD_no_eq c
  rw [h]
  simp [String.data_append]

theorem comboValue_inj (s₁ s₂ : ComboSegment) (h : comboValue s₁ = comboValue s₂) :
    s₁.GetCombo = s₂.GetCombo ∧ s₁.GetMissCombo = s₂.GetMissCombo := by
  unfold comboValue at h
  by_cases h₁ : s₁.GetCombo = s₁.GetMissCombo
  · by_cases h₂ : s₂.GetCombo = s₂.GetMissCombo
    · simp only [h₁, h₂, if_true] at h
      have := fmtD_inj _ _ h
      exact ⟨by rw [h₁, h₂, this], this⟩
    · simp only [h₁, h₂, if_true, if_false] at h
      exact absurd h (fmtD_ne_pair _ _ _)
  · by_cases h₂ : s₂.GetCombo = s₂.GetMissCombo
    · simp only [h₁, h₂, if_true, if_false] at h
      exact absurd h.symm (fmtD_ne_pair _ _ _)
    · simp only [h₁, h₂, if_false] at h
      exact fmtD_pair_inj _ _ _ _ h

/-- C21 (the Combo payload encoding is injective).  When the value text written for a combo
segment equals the value text written for another, the two segments have the same combo and the
same miss combo.  The value text is what the combo branch of `GetTimingTags` passes to
`Write(row, value)`: the single form `c` when the combo equals the miss combo, the pair form
`c=m` otherwise; a single form never equals a pair form, two pair forms are equal only for equal
pairs, and two single forms only for equal integers. -/
theorem combo_payload_injective {F : Type} (ext : Ext F) (s₁ s₂ : ComboSegment)
    (h : comboValue s₁ = comboValue s₂) :
    (s₁.GetCombo = s₂.GetCombo ∧ s₁.GetMissCombo = s₂.GetMissCombo)
    ∧ (∀ (w : TimingTagWriter) (cs : ComboSegment),
        (if cs.GetCombo = cs.GetMissCombo then w.Write_int ext cs.GetRow cs.GetCombo
          else w.Write_int_int ext cs.GetRow cs.GetCombo cs.GetMissCombo)
        = w.Write ext cs.GetRow (comboValue cs))
    ∧ (∀ c a b : Int, fmtD c ≠ fmtD a ++ "=" ++ fmtD b)
    ∧ (∀ a b a' b' : Int,
        fmtD a ++ "=" ++ fmtD b = fmtD a' ++ "=" ++ fmtD b' → a = a' ∧ b = b')
    ∧ (∀ a b : Int, fmtD a = fmtD b → a = b) := by
  refine ⟨comboValue_inj s₁ s₂ h, ?_, fmtD_ne_pair, fmtD_pair_inj, fmtD_inj⟩
  intro w cs
  by_cases hc : cs.GetCombo = cs.GetMissCombo
  · simp only [hc, if_true, comboValue]; rfl
  · simp only [hc, if_false, comboValue]; rfl

/-- C21, at two combo segments on different rows with combo 4 and miss combo 7. -/
theorem combo_payload_injective_witness :
    comboValue ⟨0, 4, 7⟩ = comboValue ⟨48, 4, 7⟩
    ∧ comboValue ⟨0, 4, 7⟩ = "4=7"
    ∧ (⟨0, 4, 7⟩ : ComboSegment).GetCombo = (⟨48, 4, 7⟩ : ComboSegment).GetCombo
    ∧ (⟨0, 4, 7⟩ : ComboSegment).GetMissCombo = (⟨48, 4, 7⟩ : ComboSegment).GetMissCombo :=
  ⟨by decide, by decide,
    (combo_payload_injective refExt ⟨0, 4, 7⟩ ⟨48, 4, 7⟩ (by decide)).1⟩

end NotesWriterSSC
